import Mathlib

/-!
Verification of the vibeMK HTTP client core (src/api/client.py) and its
configuration layer (src/config/settings.py) against the repository's
design specification.

The development shallowly embeds the Python code:

* Python values that flow through JSON serialisation / parameter encoding
  are modelled by the mutually inductive type `JValue` (strings, ints,
  booleans, None, lists, dicts).
* `json.dumps` (with its default `ensure_ascii=True`, separators
  `", "` / `": "`) is modelled by `dumps`; `json.loads` by `jparse`,
  a fuel-indexed recursive-descent JSON parser.
* `urllib.parse.quote` (with its default `safe='/'`) is modelled by
  `quote`; `urllib.parse.unquote` by `unquote` (percent-decoding to
  UTF-8 bytes followed by UTF-8 decoding; a decoding failure is
  modelled as `none` where Python would substitute U+FFFD).
* The network is abstracted by an oracle `responses : Nat → String →
  HttpOutcome` giving, for each wire request index and request URL, the
  outcome of `urllib.request.urlopen`: a returned response, a raised
  `urllib.error.HTTPError`, or another raised exception (`PyExc`).
* `CheckMKClient.request` together with its helpers
  `_handle_http_error` / `_handle_general_error` (whose bodies are
  inlined at their unique call sites) is modelled by `requestT`,
  instrumented to additionally return the number of wire requests
  issued and the list of back-off sleeps performed.
-/

/-! ### Python/JSON data model -/

mutual

/-- JSON-serialisable Python values: `str`, `int`, `bool`, `None`,
`list`, `dict` (with string keys, in insertion order). -/
inductive JValue : Type where
  | str (s : String)
  | int (n : Int)
  | bool (b : Bool)
  | null
  | arr (xs : JArr)
  | obj (kvs : JObj)
  deriving DecidableEq

/-- A Python list of JSON-serialisable values. -/
inductive JArr : Type where
  | nil
  | cons (hd : JValue) (tl : JArr)
  deriving DecidableEq

/-- A Python dict with string keys and JSON-serialisable values,
in insertion order. -/
inductive JObj : Type where
  | nil
  | cons (k : String) (v : JValue) (tl : JObj)
  deriving DecidableEq

end

/-- The elements of a `JArr` as a Lean list. -/
def JArr.toList : JArr → List JValue
  | .nil => []
  | .cons h t => h :: t.toList

/-- The entries of a `JObj` as a Lean association list. -/
def JObj.toList : JObj → List (String × JValue)
  | .nil => []
  | .cons k v t => (k, v) :: t.toList

/-- Whether a value is a Python `list`. -/
def JValue.isArrB : JValue → Bool
  | .arr _ => true
  | _ => false

/-- Whether a value is a Python `dict`. -/
def JValue.isObjB : JValue → Bool
  | .obj _ => true
  | _ => false

/-! ### Decimal digits -/

/-- The ASCII character of a decimal digit. -/
def decChar (n : Nat) : Char := Char.ofNat (48 + n)

/-- Whether a character is an ASCII decimal digit. -/
def isDigitC (c : Char) : Bool := 48 ≤ c.toNat && c.toNat ≤ 57

/-- Fuel-indexed decimal printer (most significant digit first). -/
def natReprAux : Nat → Nat → List Char
  | 0, _ => []
  | f+1, n => if n < 10 then [decChar n] else natReprAux f (n / 10) ++ [decChar (n % 10)]

/-- Decimal representation of a natural number, as produced by Python's
`str`/`repr` on a non-negative `int`. -/
def natRepr (n : Nat) : List Char := natReprAux (n + 1) n

/-- Decimal representation of a Python `int` (with `-` sign when negative). -/
def intRepr : Int → List Char
  | .ofNat n => natRepr n
  | .negSucc n => '-' :: natRepr (n + 1)

theorem natReprAux_fuel {f g n : Nat} (hf : n < f) (hg : n < g) :
    natReprAux f n = natReprAux g n := by
  induction f using Nat.strong_induction_on generalizing g n with
  | _ f ih =>
    match f, g with
    | f'+1, g'+1 =>
      simp only [natReprAux]
      by_cases h : n < 10
      · simp [h]
      · have h10 : n / 10 < n := Nat.div_lt_self (by omega) (by omega)
        simp only [h, if_false]
        rw [ih f' (by omega) (n := n / 10) (g := g') (by omega) (by omega)]

/-- The defining recursion of `natRepr`. -/
theorem natRepr_eq (n : Nat) :
    natRepr n = if n < 10 then [decChar n] else natRepr (n / 10) ++ [decChar (n % 10)] := by
  by_cases h : n < 10
  · simp [natRepr, natReprAux, h]
  · have h10 : n / 10 < n := Nat.div_lt_self (by omega) (by omega)
    have h1 : natReprAux (n + 1) n = natReprAux n (n / 10) ++ [decChar (n % 10)] := by
      simp [natReprAux, h]
    have h2 : natReprAux n (n / 10) = natReprAux (n / 10 + 1) (n / 10) :=
      natReprAux_fuel (by omega) (by omega)
    simp only [natRepr, h1, h2, h, if_false]

theorem natRepr_head (n : Nat) :
    ∃ d ds, natRepr n = d :: ds ∧ isDigitC d = true := by
  induction n using Nat.strong_induction_on with
  | _ n ih =>
    rw [natRepr_eq]
    by_cases h : n < 10
    · refine ⟨decChar n, [], by simp [h], ?_⟩
      interval_cases n <;> decide
    · have h10 : n / 10 < n := Nat.div_lt_self (by omega) (by omega)
      obtain ⟨d, ds, hds, hd⟩ := ih (n / 10) h10
      exact ⟨d, ds ++ [decChar (n % 10)], by simp [h, hds], hd⟩

/-! ### Hexadecimal digits -/

/-- Lowercase hex digit character (Python's `"%04x"` formatting). -/
def hexDigL (n : Nat) : Char := if n < 10 then Char.ofNat (48 + n) else Char.ofNat (87 + n)

/-- Uppercase hex digit character (as emitted by `urllib.parse.quote`). -/
def hexDigU (n : Nat) : Char := if n < 10 then Char.ofNat (48 + n) else Char.ofNat (55 + n)

/-- Numeric value of a hex digit character (either case), as accepted by
JSON `\uXXXX` escapes and by `urllib.parse.unquote`. -/
def hexVal (c : Char) : Option Nat :=
  if 48 ≤ c.toNat ∧ c.toNat ≤ 57 then some (c.toNat - 48)
  else if 97 ≤ c.toNat ∧ c.toNat ≤ 102 then some (c.toNat - 87)
  else if 65 ≤ c.toNat ∧ c.toNat ≤ 70 then some (c.toNat - 55)
  else none

/-- Four lowercase hex digits of `n < 0x10000` (Python `"\\u%04x"`). -/
def hex4 (n : Nat) : List Char :=
  [hexDigL (n / 4096), hexDigL (n / 256 % 16), hexDigL (n / 16 % 16), hexDigL (n % 16)]

/-- Two uppercase hex digits of a byte (Python `quote`'s `%XX`). -/
def hexU2 (b : Nat) : List Char := [hexDigU (b / 16), hexDigU (b % 16)]

theorem hexVal_hexDigL : ∀ m < 16, hexVal (hexDigL m) = some m := by decide

theorem hexVal_hexDigU : ∀ m < 16, hexVal (hexDigU m) = some m := by decide

/-! ### UTF-8 encoding and decoding -/

/-- UTF-8 encoding of a Unicode scalar value, as a list of bytes. -/
def utf8Encode (n : Nat) : List Nat :=
  if n < 0x80 then [n]
  else if n < 0x800 then [0xc0 + n / 64, 0x80 + n % 64]
  else if n < 0x10000 then [0xe0 + n / 4096, 0x80 + n / 64 % 64, 0x80 + n % 64]
  else [0xf0 + n / 262144, 0x80 + n / 4096 % 64, 0x80 + n / 64 % 64, 0x80 + n % 64]

/-- UTF-8 bytes of a character. -/
def utf8Bytes (c : Char) : List Nat := utf8Encode c.toNat

mutual

/-- Strict UTF-8 decoder (rejects overlong forms, surrogates and
out-of-range code points; a failure is `none` where Python's
`errors="replace"` would substitute U+FFFD). -/
def utf8Decode : List Nat → Option (List Char)
  | [] => some []
  | b :: rest =>
    if b < 0x80 then (utf8Decode rest).map (Char.ofNat b :: ·)
    else if 0xc0 ≤ b ∧ b < 0xe0 then utf8Dec2 b rest
    else if 0xe0 ≤ b ∧ b < 0xf0 then utf8Dec3 b rest
    else if 0xf0 ≤ b ∧ b < 0xf8 then utf8Dec4 b rest
    else none

/-- Continuation of `utf8Decode` after a two-byte leading byte. -/
def utf8Dec2 (b : Nat) : List Nat → Option (List Char)
  | b1 :: r =>
    if 0x80 ≤ b1 ∧ b1 < 0xc0 then
      let n := (b - 0xc0) * 64 + (b1 - 0x80)
      if 0x80 ≤ n then (utf8Decode r).map (Char.ofNat n :: ·) else none
    else none
  | [] => none

/-- Continuation of `utf8Decode` after a three-byte leading byte. -/
def utf8Dec3 (b : Nat) : List Nat → Option (List Char)
  | b1 :: b2 :: r =>
    if (0x80 ≤ b1 ∧ b1 < 0xc0) ∧ (0x80 ≤ b2 ∧ b2 < 0xc0) then
      let n := (b - 0xe0) * 4096 + (b1 - 0x80) * 64 + (b2 - 0x80)
      if 0x800 ≤ n ∧ (n < 0xd800 ∨ 0xdfff < n) then
        (utf8Decode r).map (Char.ofNat n :: ·)
      else none
    else none
  | _ => none

/-- Continuation of `utf8Decode` after a four-byte leading byte. -/
def utf8Dec4 (b : Nat) : List Nat → Option (List Char)
  | b1 :: b2 :: b3 :: r =>
    if (0x80 ≤ b1 ∧ b1 < 0xc0) ∧ (0x80 ≤ b2 ∧ b2 < 0xc0) ∧ (0x80 ≤ b3 ∧ b3 < 0xc0) then
      let n := (b - 0xf0) * 262144 + (b1 - 0x80) * 4096 + (b2 - 0x80) * 64 + (b3 - 0x80)
      if 0x10000 ≤ n ∧ n < 0x110000 then (utf8Decode r).map (Char.ofNat n :: ·) else none
    else none
  | _ => none

end

/-- Unicode scalar values are below 0xd800 or in (0xdfff, 0x110000). -/
theorem char_valid (c : Char) : c.toNat < 0xd800 ∨ (0xdfff < c.toNat ∧ c.toNat < 0x110000) := by
  have h := c.valid
  rcases h with h | ⟨h1, h2⟩
  · left
    exact h
  · right
    exact ⟨h1, h2⟩

theorem utf8Decode_one (b : Nat) (r : List Nat) (h1 : b < 0x80) :
    utf8Decode (b :: r) = (utf8Decode r).map (Char.ofNat b :: ·) := by
  conv_lhs => rw [utf8Decode]
  exact if_pos h1

theorem utf8Decode_two (b b1 : Nat) (r : List Nat) (h1 : ¬ b < 0x80)
    (h2 : 0xc0 ≤ b ∧ b < 0xe0) (h3 : 0x80 ≤ b1 ∧ b1 < 0xc0)
    (h4 : 0x80 ≤ (b - 0xc0) * 64 + (b1 - 0x80)) :
    utf8Decode (b :: b1 :: r) =
      (utf8Decode r).map (Char.ofNat ((b - 0xc0) * 64 + (b1 - 0x80)) :: ·) := by
  conv_lhs => rw [utf8Decode]
  rw [if_neg h1, if_pos h2, utf8Dec2]
  simp only [h3, and_self, if_true, h4, true_and]

theorem utf8Decode_three (b b1 b2 : Nat) (r : List Nat) (h1 : ¬ b < 0x80)
    (h2 : ¬ (0xc0 ≤ b ∧ b < 0xe0)) (h3 : 0xe0 ≤ b ∧ b < 0xf0)
    (h4 : (0x80 ≤ b1 ∧ b1 < 0xc0) ∧ (0x80 ≤ b2 ∧ b2 < 0xc0))
    (h5 : 0x800 ≤ (b - 0xe0) * 4096 + (b1 - 0x80) * 64 + (b2 - 0x80) ∧
      ((b - 0xe0) * 4096 + (b1 - 0x80) * 64 + (b2 - 0x80) < 0xd800 ∨
        0xdfff < (b - 0xe0) * 4096 + (b1 - 0x80) * 64 + (b2 - 0x80))) :
    utf8Decode (b :: b1 :: b2 :: r) =
      (utf8Decode r).map (Char.ofNat ((b - 0xe0) * 4096 + (b1 - 0x80) * 64 + (b2 - 0x80)) :: ·) := by
  conv_lhs => rw [utf8Decode]
  rw [if_neg h1, if_neg h2, if_pos h3, utf8Dec3]
  rw [if_pos h4, if_pos h5]

theorem utf8Decode_four (b b1 b2 b3 : Nat) (r : List Nat) (h1 : ¬ b < 0x80)
    (h2 : ¬ (0xc0 ≤ b ∧ b < 0xe0)) (h3 : ¬ (0xe0 ≤ b ∧ b < 0xf0))
    (h4 : 0xf0 ≤ b ∧ b < 0xf8)
    (h5 : (0x80 ≤ b1 ∧ b1 < 0xc0) ∧ (0x80 ≤ b2 ∧ b2 < 0xc0) ∧ (0x80 ≤ b3 ∧ b3 < 0xc0))
    (h6 : 0x10000 ≤ (b - 0xf0) * 262144 + (b1 - 0x80) * 4096 + (b2 - 0x80) * 64 + (b3 - 0x80) ∧
      (b - 0xf0) * 262144 + (b1 - 0x80) * 4096 + (b2 - 0x80) * 64 + (b3 - 0x80) < 0x110000) :
    utf8Decode (b :: b1 :: b2 :: b3 :: r) =
      (utf8Decode r).map
        (Char.ofNat ((b - 0xf0) * 262144 + (b1 - 0x80) * 4096 + (b2 - 0x80) * 64 + (b3 - 0x80))
          :: ·) := by
  conv_lhs => rw [utf8Decode]
  rw [if_neg h1, if_neg h2, if_neg h3, if_pos h4, utf8Dec4]
  rw [if_pos h5, if_pos h6]

theorem utf8Decode_utf8Bytes (c : Char) (bs : List Nat) :
    utf8Decode (utf8Bytes c ++ bs) = (utf8Decode bs).map (c :: ·) := by
  have hv := char_valid c
  have hofn : Char.ofNat c.toNat = c := Char.ofNat_toNat c
  by_cases h1 : c.toNat < 0x80
  · have henc : utf8Bytes c = [c.toNat] := by
      unfold utf8Bytes utf8Encode
      rw [if_pos h1]
    rw [henc, List.cons_append, List.nil_append, utf8Decode_one _ _ h1, hofn]
  · by_cases h2 : c.toNat < 0x800
    · have henc : utf8Bytes c = [0xc0 + c.toNat / 64, 0x80 + c.toNat % 64] := by
        unfold utf8Bytes utf8Encode
        rw [if_neg h1, if_pos h2]
      rw [henc]
      simp only [List.cons_append, List.nil_append]
      rw [utf8Decode_two _ _ _ (by omega) (by omega) (by omega) (by omega)]
      have e : (0xc0 + c.toNat / 64 - 0xc0) * 64 + (0x80 + c.toNat % 64 - 0x80) = c.toNat := by
        omega
      rw [e, hofn]
    · by_cases h3 : c.toNat < 0x10000
      · have henc : utf8Bytes c =
            [0xe0 + c.toNat / 4096, 0x80 + c.toNat / 64 % 64, 0x80 + c.toNat % 64] := by
          unfold utf8Bytes utf8Encode
          rw [if_neg h1, if_neg h2, if_pos h3]
        rw [henc]
        simp only [List.cons_append, List.nil_append]
        rw [utf8Decode_three _ _ _ _ (by omega) (by omega) (by omega) (by omega) (by omega)]
        have e : (0xe0 + c.toNat / 4096 - 0xe0) * 4096 + (0x80 + c.toNat / 64 % 64 - 0x80) * 64 +
            (0x80 + c.toNat % 64 - 0x80) = c.toNat := by omega
        rw [e, hofn]
      · have henc : utf8Bytes c = [0xf0 + c.toNat / 262144, 0x80 + c.toNat / 4096 % 64,
            0x80 + c.toNat / 64 % 64, 0x80 + c.toNat % 64] := by
          unfold utf8Bytes utf8Encode
          rw [if_neg h1, if_neg h2, if_neg h3]
        rw [henc]
        simp only [List.cons_append, List.nil_append]
        rw [utf8Decode_four _ _ _ _ _ (by omega) (by omega) (by omega) (by omega) (by omega)
          (by omega)]
        have e : (0xf0 + c.toNat / 262144 - 0xf0) * 262144 + (0x80 + c.toNat / 4096 % 64 - 0x80) *
            4096 + (0x80 + c.toNat / 64 % 64 - 0x80) * 64 + (0x80 + c.toNat % 64 - 0x80) =
            c.toNat := by omega
        rw [e, hofn]

/-! ### `urllib.parse.quote` / `urllib.parse.unquote` -/

/-- The characters `urllib.parse.quote` leaves unencoded with its default
`safe='/'`: ASCII letters, digits, `_.-~` and `/`. -/
def alwaysSafeC (c : Char) : Bool :=
  (65 ≤ c.toNat && c.toNat ≤ 90) || (97 ≤ c.toNat && c.toNat ≤ 122) ||
    (48 ≤ c.toNat && c.toNat ≤ 57) || c = '_' || c = '.' || c = '-' || c = '~' || c = '/'

/-- Encoding of one character under `urllib.parse.quote`: safe characters
pass through, every other character becomes `%XX` per UTF-8 byte. -/
def quoteChar (c : Char) : List Char :=
  if alwaysSafeC c then [c] else (utf8Bytes c).flatMap (fun b => '%' :: hexU2 b)

/-- Model of `urllib.parse.quote(str(...), safe='/')`. -/
def quote (s : String) : String := ⟨s.data.flatMap quoteChar⟩

/-- Percent-decoding to bytes: `%XX` with two hex digits becomes one byte,
an invalid escape leaves the `%` literal, any other character contributes
its UTF-8 bytes. -/
def pctBytes : List Char → List Nat
  | [] => []
  | '%' :: h1 :: h2 :: r =>
    match hexVal h1, hexVal h2 with
    | some a, some b => (a * 16 + b) :: pctBytes r
    | _, _ => utf8Bytes '%' ++ pctBytes (h1 :: h2 :: r)
  | c :: rest => utf8Bytes c ++ pctBytes rest

/-- Model of `urllib.parse.unquote` (UTF-8): percent-decode to bytes, then
UTF-8-decode. A decoding failure is `none` where Python's
`errors="replace"` would substitute U+FFFD characters. -/
def unquote (s : String) : Option String :=
  (utf8Decode (pctBytes s.data)).map (fun l => ⟨l⟩)

theorem pctBytes_esc (h1 h2 : Char) (r : List Char) (a b : Nat)
    (ha : hexVal h1 = some a) (hb : hexVal h2 = some b) :
    pctBytes ('%' :: h1 :: h2 :: r) = (a * 16 + b) :: pctBytes r := by
  rw [pctBytes, ha, hb]

theorem pctBytes_char (c : Char) (rest : List Char) (hc : ¬ c = '%') :
    pctBytes (c :: rest) = utf8Bytes c ++ pctBytes rest := by
  match rest with
  | [] => rw [pctBytes.eq_def]; simp [hc]
  | [h1] => rw [pctBytes.eq_def]; simp [hc]
  | h1 :: h2 :: r => rw [pctBytes.eq_def]; simp [hc]

theorem utf8Bytes_lt (c : Char) : ∀ b ∈ utf8Bytes c, b < 256 := by
  have hv := char_valid c
  intro b hb
  unfold utf8Bytes utf8Encode at hb
  by_cases h1 : c.toNat < 0x80
  · simp only [h1, if_true, List.mem_singleton] at hb
    omega
  · by_cases h2 : c.toNat < 0x800
    · simp only [h1, h2, if_true, if_false, List.mem_cons, List.mem_singleton,
        List.not_mem_nil, or_false] at hb
      omega
    · by_cases h3 : c.toNat < 0x10000
      · simp only [h1, h2, h3, if_true, if_false, List.mem_cons, List.mem_singleton,
          List.not_mem_nil, or_false] at hb
        omega
      · simp only [h1, h2, h3, if_false, List.mem_cons, List.mem_singleton,
          List.not_mem_nil, or_false] at hb
        omega

theorem pctBytes_escBytes (bs : List Nat) (h : ∀ b ∈ bs, b < 256) (rest : List Char) :
    pctBytes (bs.flatMap (fun b => '%' :: hexU2 b) ++ rest) = bs ++ pctBytes rest := by
  induction bs with
  | nil => simp
  | cons b bs ih =>
    have hb : b < 256 := h b (by simp)
    have hstep : (b :: bs).flatMap (fun x => '%' :: hexU2 x) ++ rest =
        '%' :: hexDigU (b / 16) :: hexDigU (b % 16) ::
          (bs.flatMap (fun x => '%' :: hexU2 x) ++ rest) := by
      simp [hexU2]
    rw [hstep, pctBytes_esc _ _ _ _ _ (hexVal_hexDigU (b / 16) (by omega))
      (hexVal_hexDigU (b % 16) (by omega)), ih (fun x hx => h x (by simp [hx]))]
    have e : b / 16 * 16 + b % 16 = b := by omega
    rw [e, List.cons_append]

theorem pctBytes_quoteChar (c : Char) (rest : List Char) :
    pctBytes (quoteChar c ++ rest) = utf8Bytes c ++ pctBytes rest := by
  unfold quoteChar
  by_cases hs : alwaysSafeC c
  · have hc : ¬ c = '%' := by
      intro h
      rw [h] at hs
      exact absurd hs (by decide)
    simp only [hs, if_true, List.cons_append, List.nil_append]
    exact pctBytes_char c rest hc
  · simp only [hs, if_false]
    exact pctBytes_escBytes (utf8Bytes c) (utf8Bytes_lt c) rest

theorem pctBytes_quoteBody (l rest : List Char) :
    pctBytes (l.flatMap quoteChar ++ rest) = l.flatMap utf8Bytes ++ pctBytes rest := by
  induction l with
  | nil => simp
  | cons c l ih =>
    simp only [List.flatMap_cons, List.append_assoc]
    rw [pctBytes_quoteChar, ih]

theorem utf8Decode_flat (l : List Char) (bs : List Nat) :
    utf8Decode (l.flatMap utf8Bytes ++ bs) = (utf8Decode bs).map (l ++ ·) := by
  induction l with
  | nil => simp [Option.map_id']
  | cons c l ih =>
    simp only [List.flatMap_cons, List.append_assoc]
    rw [utf8Decode_utf8Bytes, ih, Option.map_map]
    rfl

/-- `urllib.parse.unquote` undoes `urllib.parse.quote`. -/
theorem unquote_quote (s : String) : unquote (quote s) = some s := by
  show (utf8Decode (pctBytes (s.data.flatMap quoteChar))).map (fun l => String.mk l) = some s
  rw [← List.append_nil (s.data.flatMap quoteChar), pctBytes_quoteBody]
  show (utf8Decode (s.data.flatMap utf8Bytes ++ pctBytes [])).map (fun l => String.mk l) = some s
  rw [show pctBytes [] = [] from rfl, utf8Decode_flat]
  show ((utf8Decode []).map (s.data ++ ·)).map (fun l => String.mk l) = some s
  rw [show utf8Decode [] = some [] from rfl]
  simp

theorem comma_not_in_quoteChar (c : Char) : ',' ∉ quoteChar c := by
  intro hc
  unfold quoteChar at hc
  by_cases hs : alwaysSafeC c
  · rw [if_pos hs, List.mem_singleton] at hc
    rw [← hc] at hs
    exact absurd hs (by decide)
  · rw [if_neg hs, List.mem_flatMap] at hc
    obtain ⟨b, hb, hcb⟩ := hc
    have hblt : b < 256 := utf8Bytes_lt c b hb
    rw [hexU2, List.mem_cons, List.mem_cons, List.mem_singleton] at hcb
    rcases hcb with h | h | h
    · exact absurd h (by decide)
    · have h16 : b / 16 < 16 := by omega
      have hv := hexVal_hexDigU (b / 16) h16
      rw [← h, show hexVal ',' = none from by decide] at hv
      exact Option.noConfusion hv
    · have h16 : b % 16 < 16 := by omega
      have hv := hexVal_hexDigU (b % 16) h16
      rw [← h, show hexVal ',' = none from by decide] at hv
      exact Option.noConfusion hv

/-- `quote` never emits a comma: its output consists of safe characters,
`%` and hex digits only. -/
theorem quote_no_comma (s : String) : ',' ∉ (quote s).data := by
  show ',' ∉ s.data.flatMap quoteChar
  intro hmem
  rw [List.mem_flatMap] at hmem
  obtain ⟨c, _, hc⟩ := hmem
  exact comma_not_in_quoteChar c hc

/-! ### `json.dumps` (defaults: `ensure_ascii=True`, separators `", "`, `": "`) -/

/-- Encoding of one character inside a JSON string literal, following
`json.encoder.py_encode_basestring_ascii`: the two-character escapes for
`\"`, `\\`, `\b`, `\f`, `\n`, `\r`, `\t`; printable ASCII verbatim;
everything else as `\uXXXX` (with a surrogate pair above U+FFFF). -/
def escChar (c : Char) : List Char :=
  if c = '"' then ['\\', '"']
  else if c = '\\' then ['\\', '\\']
  else if c = '\x08' then ['\\', 'b']
  else if c = '\x0c' then ['\\', 'f']
  else if c = '\n' then ['\\', 'n']
  else if c = '\r' then ['\\', 'r']
  else if c = '\t' then ['\\', 't']
  else if 0x20 ≤ c.toNat ∧ c.toNat ≤ 0x7e then [c]
  else if c.toNat < 0x10000 then '\\' :: 'u' :: hex4 c.toNat
  else ('\\' :: 'u' :: hex4 (0xd800 + (c.toNat - 0x10000) / 1024)) ++
    ('\\' :: 'u' :: hex4 (0xdc00 + (c.toNat - 0x10000) % 1024))

/-- JSON string literal for a Python string. -/
def dumpStr (s : String) : List Char := ('"' :: s.data.flatMap escChar) ++ ['"']

mutual

/-- `json.dumps` with its default separators, as a character list. -/
def dumpV : JValue → List Char
  | .str s => dumpStr s
  | .int n => intRepr n
  | .bool true => ['t', 'r', 'u', 'e']
  | .bool false => ['f', 'a', 'l', 's', 'e']
  | .null => ['n', 'u', 'l', 'l']
  | .arr .nil => ['[', ']']
  | .arr (.cons h t) => '[' :: (dumpV h ++ dumpArrTail t ++ [']'])
  | .obj .nil => ['\x7b', '\x7d']
  | .obj (.cons k v t) =>
    '\x7b' :: (dumpStr k ++ (':' :: ' ' :: (dumpV v ++ dumpObjTail t ++ ['\x7d'])))

/-- The `", item"` continuations of a JSON array body. -/
def dumpArrTail : JArr → List Char
  | .nil => []
  | .cons h t => ',' :: ' ' :: (dumpV h ++ dumpArrTail t)

/-- The `", key: value"` continuations of a JSON object body. -/
def dumpObjTail : JObj → List Char
  | .nil => []
  | .cons k v t => ',' :: ' ' :: (dumpStr k ++ (':' :: ' ' :: (dumpV v ++ dumpObjTail t)))

end

/-- Model of `json.dumps(value)` with the library defaults. -/
def dumps (v : JValue) : String := ⟨dumpV v⟩

/-! ### `json.loads`: a recursive-descent JSON parser -/

/-- JSON insignificant whitespace. -/
def isWsC (c : Char) : Bool := c = ' ' || c = '\n' || c = '\t' || c = '\r'

/-- Drop leading JSON whitespace. -/
def skipWs : List Char → List Char
  | [] => []
  | c :: rest => if isWsC c then skipWs rest else c :: rest

/-- Consume decimal digits, accumulating their value. -/
def parseDigitsAux (acc : Nat) : List Char → Nat × List Char
  | [] => (acc, [])
  | c :: cs => if isDigitC c then parseDigitsAux (acc * 10 + (c.toNat - 48)) cs else (acc, c :: cs)

mutual

/-- Parse the body of a JSON string literal (after the opening quote),
returning the decoded characters and the input after the closing
quote. -/
def parseStrAux : List Char → Option (List Char × List Char)
  | [] => none
  | c :: rest =>
    if c = '"' then some ([], rest)
    else if c = '\\' then parseStrEsc rest
    else (parseStrAux rest).map (fun p => (c :: p.1, p.2))

/-- Parse a string escape (after the backslash). -/
def parseStrEsc : List Char → Option (List Char × List Char)
  | [] => none
  | e :: r =>
    if e = '"' then (parseStrAux r).map (fun p => ('"' :: p.1, p.2))
    else if e = '\\' then (parseStrAux r).map (fun p => ('\\' :: p.1, p.2))
    else if e = '/' then (parseStrAux r).map (fun p => ('/' :: p.1, p.2))
    else if e = 'b' then (parseStrAux r).map (fun p => ('\x08' :: p.1, p.2))
    else if e = 'f' then (parseStrAux r).map (fun p => ('\x0c' :: p.1, p.2))
    else if e = 'n' then (parseStrAux r).map (fun p => ('\n' :: p.1, p.2))
    else if e = 'r' then (parseStrAux r).map (fun p => ('\r' :: p.1, p.2))
    else if e = 't' then (parseStrAux r).map (fun p => ('\t' :: p.1, p.2))
    else if e = 'u' then parseStrU r
    else none

/-- Parse a `\uXXXX` escape (after `\u`), combining surrogate pairs and
rejecting lone surrogates. -/
def parseStrU : List Char → Option (List Char × List Char)
  | h1 :: h2 :: h3 :: h4 :: r2 =>
    match hexVal h1, hexVal h2, hexVal h3, hexVal h4 with
    | some a, some b, some c, some d =>
      let n := a * 4096 + b * 256 + c * 16 + d
      if 0xd800 ≤ n ∧ n ≤ 0xdbff then parseStrLow n r2
      else if 0xdc00 ≤ n ∧ n ≤ 0xdfff then none
      else (parseStrAux r2).map (fun p => (Char.ofNat n :: p.1, p.2))
    | _, _, _, _ => none
  | _ => none

/-- Parse the low half `\uXXXX` of a surrogate pair. -/
def parseStrLow (hi : Nat) : List Char → Option (List Char × List Char)
  | '\\' :: 'u' :: g1 :: g2 :: g3 :: g4 :: r3 =>
    match hexVal g1, hexVal g2, hexVal g3, hexVal g4 with
    | some a, some b, some c, some d =>
      let m := a * 4096 + b * 256 + c * 16 + d
      if 0xdc00 ≤ m ∧ m ≤ 0xdfff then
        (parseStrAux r3).map (fun p =>
          (Char.ofNat (0x10000 + (hi - 0xd800) * 1024 + (m - 0xdc00)) :: p.1, p.2))
      else none
    | _, _, _, _ => none
  | _ => none

end

/-- Expect a `:` as the next character. -/
def expectColon : List Char → Option (List Char)
  | x :: r => if x = ':' then some r else none
  | [] => none

/-- Expect a `"` as the next character. -/
def stripQuote : List Char → Option (List Char)
  | x :: r => if x = '"' then some r else none
  | [] => none

/-- Parse the literal `true` (after its first character). -/
def parseTrueLit : List Char → Option (JValue × List Char)
  | 'r' :: 'u' :: 'e' :: r => some (.bool true, r)
  | _ => none

/-- Parse the literal `false` (after its first character). -/
def parseFalseLit : List Char → Option (JValue × List Char)
  | 'a' :: 'l' :: 's' :: 'e' :: r => some (.bool false, r)
  | _ => none

/-- Parse the literal `null` (after its first character). -/
def parseNullLit : List Char → Option (JValue × List Char)
  | 'u' :: 'l' :: 'l' :: r => some (.null, r)
  | _ => none

/-- Parse a negative integer (after the minus sign). -/
def parseNegInt : List Char → Option (JValue × List Char)
  | c :: cs =>
    if isDigitC c then
      let p := parseDigitsAux (c.toNat - 48) cs
      some (.int (-(p.1 : Int)), p.2)
    else none
  | [] => none

mutual

/-- Fuel-indexed parser for one JSON value, returning the value and the
remaining input. -/
def parseVal : Nat → List Char → Option (JValue × List Char)
  | 0, _ => none
  | f+1, cs =>
    match skipWs cs with
    | [] => none
    | d :: ds =>
      if d = '"' then (parseStrAux ds).map (fun p => (JValue.str ⟨p.1⟩, p.2))
      else if d = 't' then parseTrueLit ds
      else if d = 'f' then parseFalseLit ds
      else if d = 'n' then parseNullLit ds
      else if d = '[' then
        match skipWs ds with
        | [] => none
        | e :: es =>
          if e = ']' then some (.arr .nil, es)
          else
            (parseVal f (e :: es)).bind (fun p =>
              (parseArrRest f p.2).map (fun t => (JValue.arr (.cons p.1 t.1), t.2)))
      else if d = '\x7b' then
        match skipWs ds with
        | [] => none
        | e :: es =>
          if e = '\x7d' then some (.obj .nil, es)
          else
            (stripQuote (e :: es)).bind (fun es2 =>
              (parseStrAux es2).bind (fun q =>
                (expectColon (skipWs q.2)).bind (fun r2 =>
                  (parseVal f r2).bind (fun p =>
                    (parseObjRest f p.2).map (fun t =>
                      (JValue.obj (.cons ⟨q.1⟩ p.1 t.1), t.2))))))
      else if d = '-' then parseNegInt ds
      else if isDigitC d then
        some (.int ((parseDigitsAux (d.toNat - 48) ds).1 : Int),
          (parseDigitsAux (d.toNat - 48) ds).2)
      else none

/-- Parse the rest of a JSON array after one element: a `]` or `, elem`
continuations. -/
def parseArrRest : Nat → List Char → Option (JArr × List Char)
  | 0, _ => none
  | f+1, cs =>
    match skipWs cs with
    | [] => none
    | d :: ds =>
      if d = ']' then some (.nil, ds)
      else if d = ',' then
        (parseVal f ds).bind (fun p =>
          (parseArrRest f p.2).map (fun t => (JArr.cons p.1 t.1, t.2)))
      else none

/-- Parse the rest of a JSON object after one member. -/
def parseObjRest : Nat → List Char → Option (JObj × List Char)
  | 0, _ => none
  | f+1, cs =>
    match skipWs cs with
    | [] => none
    | d :: ds =>
      if d = '\x7d' then some (.nil, ds)
      else if d = ',' then
        (stripQuote (skipWs ds)).bind (fun es2 =>
          (parseStrAux es2).bind (fun q =>
            (expectColon (skipWs q.2)).bind (fun r2 =>
              (parseVal f r2).bind (fun p =>
                (parseObjRest f p.2).map (fun t => (JObj.cons ⟨q.1⟩ p.1 t.1, t.2))))))
      else none

end

/-- Model of `json.loads`: parse one JSON value, requiring the rest of
the input to be whitespace. -/
def jparse (s : String) : Option JValue :=
  match parseVal (s.data.length + 1) s.data with
  | some (v, r) => if skipWs r = [] then some v else none
  | none => none

/-! ### Round-trip: `jparse` after `dumps` -/

mutual

/-- Structural size of a value, a lower bound for the parser fuel. -/
def sizeV : JValue → Nat
  | .str _ => 1
  | .int _ => 1
  | .bool _ => 1
  | .null => 1
  | .arr a => sizeA a + 1
  | .obj o => sizeO o + 1

/-- Structural size of an array tail. -/
def sizeA : JArr → Nat
  | .nil => 1
  | .cons h t => sizeV h + sizeA t

/-- Structural size of an object tail. -/
def sizeO : JObj → Nat
  | .nil => 1
  | .cons _ v t => sizeV v + sizeO t

end

theorem sizeV_pos (v : JValue) : 1 ≤ sizeV v := by
  cases v <;> simp [sizeV]

theorem sizeA_pos (a : JArr) : 1 ≤ sizeA a := by
  cases a with
  | nil => simp [sizeA]
  | cons h t => have := sizeV_pos h; simp [sizeA]; omega

theorem sizeO_pos (o : JObj) : 1 ≤ sizeO o := by
  cases o with
  | nil => simp [sizeO]
  | cons k v t => have := sizeV_pos v; simp [sizeO]; omega

/-- The input after a serialised value must not begin with a digit (else
the parser would extend a serialised integer). -/
def headNotDigit : List Char → Prop
  | [] => True
  | c :: _ => isDigitC c = false

theorem skipWs_keep {d : Char} (ds : List Char) (hd : isWsC d = false) :
    skipWs (d :: ds) = d :: ds := by
  rw [skipWs, hd]
  simp

theorem digit_bounds {d : Char} (hd : isDigitC d = true) : 48 ≤ d.toNat ∧ d.toNat ≤ 57 := by
  simpa [isDigitC] using hd

theorem digit_ne {d : Char} (hd : isDigitC d = true) (c : Char)
    (hc : c.toNat < 48 ∨ 57 < c.toNat) : ¬ d = c := by
  intro h
  have hb := digit_bounds hd
  rw [h] at hb
  omega

theorem digit_not_ws {d : Char} (hd : isDigitC d = true) : isWsC d = false := by
  have h1 := digit_ne hd ' ' (by decide)
  have h2 := digit_ne hd '\n' (by decide)
  have h3 := digit_ne hd '\t' (by decide)
  have h4 := digit_ne hd '\r' (by decide)
  simp [isWsC, h1, h2, h3, h4]

/-- One-step unfolding of `parseVal` on a non-whitespace head. -/
theorem parseVal_cons (f : Nat) (d : Char) (ds : List Char) (hd : isWsC d = false) :
    parseVal (f+1) (d :: ds) =
      (if d = '"' then (parseStrAux ds).map (fun p => (JValue.str ⟨p.1⟩, p.2))
      else if d = 't' then parseTrueLit ds
      else if d = 'f' then parseFalseLit ds
      else if d = 'n' then parseNullLit ds
      else if d = '[' then
        match skipWs ds with
        | [] => none
        | e :: es =>
          if e = ']' then some (.arr .nil, es)
          else
            (parseVal f (e :: es)).bind (fun p =>
              (parseArrRest f p.2).map (fun t => (JValue.arr (.cons p.1 t.1), t.2)))
      else if d = '\x7b' then
        match skipWs ds with
        | [] => none
        | e :: es =>
          if e = '\x7d' then some (.obj .nil, es)
          else
            (stripQuote (e :: es)).bind (fun es2 =>
              (parseStrAux es2).bind (fun q =>
                (expectColon (skipWs q.2)).bind (fun r2 =>
                  (parseVal f r2).bind (fun p =>
                    (parseObjRest f p.2).map (fun t =>
                      (JValue.obj (.cons ⟨q.1⟩ p.1 t.1), t.2))))))
      else if d = '-' then parseNegInt ds
      else if isDigitC d then
        some (.int ((parseDigitsAux (d.toNat - 48) ds).1 : Int),
          (parseDigitsAux (d.toNat - 48) ds).2)
      else none) := by
  conv_lhs => rw [parseVal]
  rw [skipWs_keep ds hd]

/-- One-step unfolding of `parseArrRest` on a non-whitespace head. -/
theorem parseArrRest_cons (f : Nat) (d : Char) (ds : List Char) (hd : isWsC d = false) :
    parseArrRest (f+1) (d :: ds) =
      (if d = ']' then some (.nil, ds)
      else if d = ',' then
        (parseVal f ds).bind (fun p =>
          (parseArrRest f p.2).map (fun t => (JArr.cons p.1 t.1, t.2)))
      else none) := by
  conv_lhs => rw [parseArrRest]
  rw [skipWs_keep ds hd]

/-- One-step unfolding of `parseObjRest` on a non-whitespace head. -/
theorem parseObjRest_cons (f : Nat) (d : Char) (ds : List Char) (hd : isWsC d = false) :
    parseObjRest (f+1) (d :: ds) =
      (if d = '\x7d' then some (.nil, ds)
      else if d = ',' then
        (stripQuote (skipWs ds)).bind (fun es2 =>
          (parseStrAux es2).bind (fun q =>
            (expectColon (skipWs q.2)).bind (fun r2 =>
              (parseVal f r2).bind (fun p =>
                (parseObjRest f p.2).map (fun t => (JObj.cons ⟨q.1⟩ p.1 t.1, t.2))))))
      else none) := by
  conv_lhs => rw [parseObjRest]
  rw [skipWs_keep ds hd]

/-- `parseVal` ignores leading whitespace. -/
theorem parseVal_ws (f : Nat) {c : Char} (l : List Char) (hc : isWsC c = true) :
    parseVal f (c :: l) = parseVal f l := by
  match f with
  | 0 => rfl
  | f+1 =>
    conv_lhs => rw [parseVal]
    conv_rhs => rw [parseVal]
    rw [skipWs, hc]
    simp

theorem parseDigitsAux_stop (acc : Nat) (rest : List Char) (h : headNotDigit rest) :
    parseDigitsAux acc rest = (acc, rest) := by
  match rest with
  | [] => rfl
  | c :: cs =>
    have hc : isDigitC c = false := h
    rw [parseDigitsAux, hc]
    simp

theorem parseDigitsAux_append (m : Nat) : ∀ acc rest,
    parseDigitsAux acc (natRepr m ++ rest) =
      parseDigitsAux (acc * 10 ^ (natRepr m).length + m) rest := by
  induction m using Nat.strong_induction_on with
  | _ m ih =>
    intro acc rest
    by_cases h : m < 10
    · rw [natRepr_eq, if_pos h]
      have hd : isDigitC (decChar m) = true := by
        unfold decChar isDigitC
        have : (Char.ofNat (48 + m)).toNat = 48 + m := by
          interval_cases m <;> decide
        simp [this]
        omega
      have htn : (decChar m).toNat = 48 + m := by
        unfold decChar
        interval_cases m <;> decide
      simp only [List.cons_append, List.nil_append, parseDigitsAux, hd, if_true, htn,
        List.length_singleton]
      norm_num
    · rw [natRepr_eq]
      simp only [h, if_false, List.append_assoc, List.cons_append, List.nil_append]
      have h10 : m / 10 < m := Nat.div_lt_self (by omega) (by omega)
      rw [ih (m / 10) h10]
      have hd : isDigitC (decChar (m % 10)) = true := by
        unfold decChar isDigitC
        have hm : m % 10 < 10 := Nat.mod_lt _ (by omega)
        have : (Char.ofNat (48 + m % 10)).toNat = 48 + m % 10 := by
          interval_cases h : m % 10 <;> simp [h]
        simp [this]
        omega
      have htn : (decChar (m % 10)).toNat = 48 + m % 10 := by
        unfold decChar
        have hm : m % 10 < 10 := Nat.mod_lt _ (by omega)
        interval_cases h : m % 10 <;> simp [h]
      rw [parseDigitsAux, hd]
      simp only [if_true, htn]
      have hlen : (natRepr (m / 10) ++ [decChar (m % 10)]).length =
          (natRepr (m / 10)).length + 1 := by simp
      rw [hlen]
      have e : (acc * 10 ^ (natRepr (m / 10)).length + m / 10) * 10 + (48 + m % 10 - 48) =
          acc * 10 ^ ((natRepr (m / 10)).length + 1) + m := by
        have : 10 ^ ((natRepr (m / 10)).length + 1) = 10 ^ (natRepr (m / 10)).length * 10 :=
          pow_succ 10 _
        rw [this]
        have hdm := Nat.div_add_mod m 10
        ring_nf
        omega
      rw [e]

theorem parseStrAux_cons (c : Char) (rest : List Char) :
    parseStrAux (c :: rest) =
      (if c = '"' then some ([], rest)
      else if c = '\\' then parseStrEsc rest
      else (parseStrAux rest).map (fun p => (c :: p.1, p.2))) := by
  rw [parseStrAux]

theorem parseStrEsc_cons (e : Char) (r : List Char) :
    parseStrEsc (e :: r) =
      (if e = '"' then (parseStrAux r).map (fun p => ('"' :: p.1, p.2))
      else if e = '\\' then (parseStrAux r).map (fun p => ('\\' :: p.1, p.2))
      else if e = '/' then (parseStrAux r).map (fun p => ('/' :: p.1, p.2))
      else if e = 'b' then (parseStrAux r).map (fun p => ('\x08' :: p.1, p.2))
      else if e = 'f' then (parseStrAux r).map (fun p => ('\x0c' :: p.1, p.2))
      else if e = 'n' then (parseStrAux r).map (fun p => ('\n' :: p.1, p.2))
      else if e = 'r' then (parseStrAux r).map (fun p => ('\r' :: p.1, p.2))
      else if e = 't' then (parseStrAux r).map (fun p => ('\t' :: p.1, p.2))
      else if e = 'u' then parseStrU r
      else none) := by
  rw [parseStrEsc]

theorem parseStrU_hex (h1 h2 h3 h4 : Char) (r2 : List Char) (a b c d : Nat)
    (ha : hexVal h1 = some a) (hb : hexVal h2 = some b) (hc : hexVal h3 = some c)
    (hd : hexVal h4 = some d) :
    parseStrU (h1 :: h2 :: h3 :: h4 :: r2) =
      (if 0xd800 ≤ a * 4096 + b * 256 + c * 16 + d ∧ a * 4096 + b * 256 + c * 16 + d ≤ 0xdbff then
        parseStrLow (a * 4096 + b * 256 + c * 16 + d) r2
      else if 0xdc00 ≤ a * 4096 + b * 256 + c * 16 + d ∧
          a * 4096 + b * 256 + c * 16 + d ≤ 0xdfff then none
      else (parseStrAux r2).map
        (fun p => (Char.ofNat (a * 4096 + b * 256 + c * 16 + d) :: p.1, p.2))) := by
  rw [parseStrU, ha, hb, hc, hd]

theorem parseStrLow_hex (hi : Nat) (g1 g2 g3 g4 : Char) (r3 : List Char) (a b c d : Nat)
    (ha : hexVal g1 = some a) (hb : hexVal g2 = some b) (hc : hexVal g3 = some c)
    (hd : hexVal g4 = some d) :
    parseStrLow hi ('\\' :: 'u' :: g1 :: g2 :: g3 :: g4 :: r3) =
      (if 0xdc00 ≤ a * 4096 + b * 256 + c * 16 + d ∧ a * 4096 + b * 256 + c * 16 + d ≤ 0xdfff then
        (parseStrAux r3).map (fun p =>
          (Char.ofNat (0x10000 + (hi - 0xd800) * 1024 +
            (a * 4096 + b * 256 + c * 16 + d - 0xdc00)) :: p.1, p.2))
      else none) := by
  rw [parseStrLow, ha, hb, hc, hd]

theorem parseStrAux_escChar (c : Char) (tail : List Char) :
    parseStrAux (escChar c ++ tail) = (parseStrAux tail).map (fun p => (c :: p.1, p.2)) := by
  have hv := char_valid c
  have hofn : Char.ofNat c.toNat = c := Char.ofNat_toNat c
  unfold escChar
  by_cases h1 : c = '"'
  · subst h1
    rw [if_pos rfl]
    simp only [List.cons_append, List.nil_append]
    rw [parseStrAux_cons, if_neg (by decide), if_pos rfl, parseStrEsc_cons, if_pos rfl]
  · rw [if_neg h1]
    by_cases h2 : c = '\\'
    · subst h2
      rw [if_pos rfl]
      simp only [List.cons_append, List.nil_append]
      rw [parseStrAux_cons, if_neg (by decide), if_pos rfl, parseStrEsc_cons,
        if_neg (by decide), if_pos rfl]
    · rw [if_neg h2]
      by_cases h3 : c = '\x08'
      · subst h3
        rw [if_pos rfl]
        simp only [List.cons_append, List.nil_append]
        rw [parseStrAux_cons, if_neg (by decide), if_pos rfl, parseStrEsc_cons,
          if_neg (by decide), if_neg (by decide), if_neg (by decide), if_pos rfl]
      · rw [if_neg h3]
        by_cases h4 : c = '\x0c'
        · subst h4
          rw [if_pos rfl]
          simp only [List.cons_append, List.nil_append]
          rw [parseStrAux_cons, if_neg (by decide), if_pos rfl, parseStrEsc_cons,
            if_neg (by decide), if_neg (by decide), if_neg (by decide), if_neg (by decide),
            if_pos rfl]
        · rw [if_neg h4]
          by_cases h5 : c = '\n'
          · subst h5
            rw [if_pos rfl]
            simp only [List.cons_append, List.nil_append]
            rw [parseStrAux_cons, if_neg (by decide), if_pos rfl, parseStrEsc_cons,
              if_neg (by decide), if_neg (by decide), if_neg (by decide), if_neg (by decide),
              if_neg (by decide), if_pos rfl]
          · rw [if_neg h5]
            by_cases h6 : c = '\r'
            · subst h6
              rw [if_pos rfl]
              simp only [List.cons_append, List.nil_append]
              rw [parseStrAux_cons, if_neg (by decide), if_pos rfl, parseStrEsc_cons,
                if_neg (by decide), if_neg (by decide), if_neg (by decide), if_neg (by decide),
                if_neg (by decide), if_neg (by decide), if_pos rfl]
            · rw [if_neg h6]
              by_cases h7 : c = '\t'
              · subst h7
                rw [if_pos rfl]
                simp only [List.cons_append, List.nil_append]
                rw [parseStrAux_cons, if_neg (by decide), if_pos rfl, parseStrEsc_cons,
                  if_neg (by decide), if_neg (by decide), if_neg (by decide),
                  if_neg (by decide), if_neg (by decide), if_neg (by decide),
                  if_neg (by decide), if_pos rfl]
              · rw [if_neg h7]
                by_cases h8 : 0x20 ≤ c.toNat ∧ c.toNat ≤ 0x7e
                · rw [if_pos h8]
                  simp only [List.cons_append, List.nil_append]
                  rw [parseStrAux_cons, if_neg h1, if_neg h2]
                · rw [if_neg h8]
                  by_cases h9 : c.toNat < 0x10000
                  · rw [if_pos h9]
                    simp only [hex4, List.cons_append, List.nil_append]
                    rw [parseStrAux_cons, if_neg (by decide), if_pos rfl, parseStrEsc_cons,
                      if_neg (by decide), if_neg (by decide), if_neg (by decide),
                      if_neg (by decide), if_neg (by decide), if_neg (by decide),
                      if_neg (by decide), if_neg (by decide), if_pos rfl]
                    rw [parseStrU_hex _ _ _ _ _ _ _ _ _
                      (hexVal_hexDigL (c.toNat / 4096) (by omega))
                      (hexVal_hexDigL (c.toNat / 256 % 16) (by omega))
                      (hexVal_hexDigL (c.toNat / 16 % 16) (by omega))
                      (hexVal_hexDigL (c.toNat % 16) (by omega))]
                    have he : c.toNat / 4096 * 4096 + c.toNat / 256 % 16 * 256 +
                        c.toNat / 16 % 16 * 16 + c.toNat % 16 = c.toNat := by omega
                    rw [he, if_neg (by omega), if_neg (by omega), hofn]
                  · rw [if_neg h9]
                    have hn : 0x10000 ≤ c.toNat ∧ c.toNat < 0x110000 := by omega
                    simp only [hex4, List.cons_append, List.nil_append, List.append_assoc]
                    rw [parseStrAux_cons, if_neg (by decide), if_pos rfl, parseStrEsc_cons,
                      if_neg (by decide), if_neg (by decide), if_neg (by decide),
                      if_neg (by decide), if_neg (by decide), if_neg (by decide),
                      if_neg (by decide), if_neg (by decide), if_pos rfl]
                    have hhi : 0xd800 + (c.toNat - 0x10000) / 1024 < 0x10000 := by omega
                    rw [parseStrU_hex _ _ _ _ _ _ _ _ _
                      (hexVal_hexDigL ((0xd800 + (c.toNat - 0x10000) / 1024) / 4096) (by omega))
                      (hexVal_hexDigL ((0xd800 + (c.toNat - 0x10000) / 1024) / 256 % 16)
                        (by omega))
                      (hexVal_hexDigL ((0xd800 + (c.toNat - 0x10000) / 1024) / 16 % 16) (by omega))
                      (hexVal_hexDigL ((0xd800 + (c.toNat - 0x10000) / 1024) % 16) (by omega))]
                    have hehi : (0xd800 + (c.toNat - 0x10000) / 1024) / 4096 * 4096 +
                        (0xd800 + (c.toNat - 0x10000) / 1024) / 256 % 16 * 256 +
                        (0xd800 + (c.toNat - 0x10000) / 1024) / 16 % 16 * 16 +
                        (0xd800 + (c.toNat - 0x10000) / 1024) % 16 =
                        0xd800 + (c.toNat - 0x10000) / 1024 := by omega
                    rw [hehi, if_pos (by omega)]
                    rw [parseStrLow_hex _ _ _ _ _ _ _ _ _ _
                      (hexVal_hexDigL ((0xdc00 + (c.toNat - 0x10000) % 1024) / 4096) (by omega))
                      (hexVal_hexDigL ((0xdc00 + (c.toNat - 0x10000) % 1024) / 256 % 16)
                        (by omega))
                      (hexVal_hexDigL ((0xdc00 + (c.toNat - 0x10000) % 1024) / 16 % 16) (by omega))
                      (hexVal_hexDigL ((0xdc00 + (c.toNat - 0x10000) % 1024) % 16) (by omega))]
                    have helo : (0xdc00 + (c.toNat - 0x10000) % 1024) / 4096 * 4096 +
                        (0xdc00 + (c.toNat - 0x10000) % 1024) / 256 % 16 * 256 +
                        (0xdc00 + (c.toNat - 0x10000) % 1024) / 16 % 16 * 16 +
                        (0xdc00 + (c.toNat - 0x10000) % 1024) % 16 =
                        0xdc00 + (c.toNat - 0x10000) % 1024 := by omega
                    rw [helo, if_pos (by omega)]
                    have hfin : 0x10000 + (0xd800 + (c.toNat - 0x10000) / 1024 - 0xd800) * 1024 +
                        (0xdc00 + (c.toNat - 0x10000) % 1024 - 0xdc00) = c.toNat := by omega
                    rw [hfin, hofn]

theorem parseStrAux_body (l : List Char) (tail : List Char) :
    parseStrAux (l.flatMap escChar ++ ('"' :: tail)) = some (l, tail) := by
  induction l with
  | nil =>
    simp only [List.flatMap_nil, List.nil_append]
    rw [parseStrAux_cons, if_pos rfl]
  | cons c l ih =>
    simp only [List.flatMap_cons, List.append_assoc]
    rw [parseStrAux_escChar, ih]
    rfl

theorem parseVal_str (f : Nat) (ds : List Char) :
    parseVal (f+1) ('"' :: ds) = (parseStrAux ds).map (fun p => (JValue.str ⟨p.1⟩, p.2)) := by
  rw [parseVal_cons _ _ _ (by decide), if_pos rfl]

theorem parseVal_true (f : Nat) (ds : List Char) :
    parseVal (f+1) ('t' :: ds) = parseTrueLit ds := by
  rw [parseVal_cons _ _ _ (by decide), if_neg (by decide), if_pos rfl]

theorem parseVal_false (f : Nat) (ds : List Char) :
    parseVal (f+1) ('f' :: ds) = parseFalseLit ds := by
  rw [parseVal_cons _ _ _ (by decide), if_neg (by decide), if_neg (by decide), if_pos rfl]

theorem parseVal_null (f : Nat) (ds : List Char) :
    parseVal (f+1) ('n' :: ds) = parseNullLit ds := by
  rw [parseVal_cons _ _ _ (by decide), if_neg (by decide), if_neg (by decide),
    if_neg (by decide), if_pos rfl]

theorem parseVal_neg (f : Nat) (ds : List Char) :
    parseVal (f+1) ('-' :: ds) = parseNegInt ds := by
  rw [parseVal_cons _ _ _ (by decide), if_neg (by decide), if_neg (by decide),
    if_neg (by decide), if_neg (by decide), if_neg (by decide), if_neg (by decide), if_pos rfl]

theorem parseVal_digit (f : Nat) {d : Char} (ds : List Char) (hd : isDigitC d = true) :
    parseVal (f+1) (d :: ds) =
      some (.int ((parseDigitsAux (d.toNat - 48) ds).1 : Int),
        (parseDigitsAux (d.toNat - 48) ds).2) := by
  rw [parseVal_cons _ _ _ (digit_not_ws hd), if_neg (digit_ne hd _ (by decide)),
    if_neg (digit_ne hd _ (by decide)), if_neg (digit_ne hd _ (by decide)),
    if_neg (digit_ne hd _ (by decide)), if_neg (digit_ne hd _ (by decide)),
    if_neg (digit_ne hd _ (by decide)), if_neg (digit_ne hd _ (by decide)), if_pos hd]

theorem parseVal_arrNil (f : Nat) (rest : List Char) :
    parseVal (f+1) ('[' :: ']' :: rest) = some (.arr .nil, rest) := by
  rw [parseVal_cons _ _ _ (by decide), if_neg (by decide), if_neg (by decide),
    if_neg (by decide), if_neg (by decide), if_pos rfl, skipWs_keep rest (by decide)]
  exact if_pos rfl

theorem parseVal_arr (f : Nat) (e : Char) (es : List Char) (he : isWsC e = false)
    (hne : ¬ e = ']') :
    parseVal (f+1) ('[' :: e :: es) =
      (parseVal f (e :: es)).bind (fun p =>
        (parseArrRest f p.2).map (fun t => (JValue.arr (.cons p.1 t.1), t.2))) := by
  rw [parseVal_cons _ _ _ (by decide), if_neg (by decide), if_neg (by decide),
    if_neg (by decide), if_neg (by decide), if_pos rfl, skipWs_keep es he]
  exact if_neg hne

theorem parseVal_objNil (f : Nat) (rest : List Char) :
    parseVal (f+1) ('\x7b' :: '\x7d' :: rest) = some (.obj .nil, rest) := by
  rw [parseVal_cons _ _ _ (by decide), if_neg (by decide), if_neg (by decide),
    if_neg (by decide), if_neg (by decide), if_neg (by decide), if_pos rfl,
    skipWs_keep rest (by decide)]
  exact if_pos rfl

theorem parseVal_obj (f : Nat) (e : Char) (es : List Char) (he : isWsC e = false)
    (hne : ¬ e = '\x7d') :
    parseVal (f+1) ('\x7b' :: e :: es) =
      (stripQuote (e :: es)).bind (fun es2 =>
        (parseStrAux es2).bind (fun q =>
          (expectColon (skipWs q.2)).bind (fun r2 =>
            (parseVal f r2).bind (fun p =>
              (parseObjRest f p.2).map (fun t =>
                (JValue.obj (.cons ⟨q.1⟩ p.1 t.1), t.2)))))) := by
  rw [parseVal_cons _ _ _ (by decide), if_neg (by decide), if_neg (by decide),
    if_neg (by decide), if_neg (by decide), if_neg (by decide), if_pos rfl,
    skipWs_keep es he]
  exact if_neg hne

theorem parseArrRest_close (f : Nat) (ds : List Char) :
    parseArrRest (f+1) (']' :: ds) = some (.nil, ds) := by
  rw [parseArrRest_cons _ _ _ (by decide)]
  exact if_pos rfl

theorem parseArrRest_comma (f : Nat) (ds : List Char) :
    parseArrRest (f+1) (',' :: ds) =
      (parseVal f ds).bind (fun p =>
        (parseArrRest f p.2).map (fun t => (JArr.cons p.1 t.1, t.2))) := by
  rw [parseArrRest_cons _ _ _ (by decide), if_neg (by decide), if_pos rfl]

theorem parseObjRest_close (f : Nat) (ds : List Char) :
    parseObjRest (f+1) ('\x7d' :: ds) = some (.nil, ds) := by
  rw [parseObjRest_cons _ _ _ (by decide)]
  exact if_pos rfl

theorem parseObjRest_comma (f : Nat) (ds : List Char) :
    parseObjRest (f+1) (',' :: ds) =
      (stripQuote (skipWs ds)).bind (fun es2 =>
        (parseStrAux es2).bind (fun q =>
          (expectColon (skipWs q.2)).bind (fun r2 =>
            (parseVal f r2).bind (fun p =>
              (parseObjRest f p.2).map (fun t => (JObj.cons ⟨q.1⟩ p.1 t.1, t.2)))))) := by
  rw [parseObjRest_cons _ _ _ (by decide), if_neg (by decide), if_pos rfl]

theorem dumpV_head (v : JValue) :
    ∃ d ds, dumpV v = d :: ds ∧ isWsC d = false ∧ ¬ d = ']' ∧ ¬ d = '\x7d' := by
  cases v with
  | str s => exact ⟨'"', _, rfl, by decide⟩
  | int n =>
    cases n with
    | ofNat m =>
      obtain ⟨d, ds, hds, hd⟩ := natRepr_head m
      exact ⟨d, ds, hds, digit_not_ws hd, digit_ne hd _ (by decide), digit_ne hd _ (by decide)⟩
    | negSucc m => exact ⟨'-', _, rfl, by decide⟩
  | bool b => cases b with
    | true => exact ⟨'t', _, rfl, by decide⟩
    | false => exact ⟨'f', _, rfl, by decide⟩
  | null => exact ⟨'n', _, rfl, by decide⟩
  | arr a => cases a with
    | nil => exact ⟨'[', _, rfl, by decide⟩
    | cons h t => exact ⟨'[', _, rfl, by decide⟩
  | obj o => cases o with
    | nil => exact ⟨'\x7b', _, rfl, by decide⟩
    | cons k v t => exact ⟨'\x7b', _, rfl, by decide⟩

theorem hnd_arrTail (t : JArr) (rest : List Char) :
    headNotDigit (dumpArrTail t ++ ']' :: rest) := by
  cases t with
  | nil => exact (by decide : isDigitC ']' = false)
  | cons h t' => exact (by decide : isDigitC ',' = false)

theorem hnd_objTail (o : JObj) (rest : List Char) :
    headNotDigit (dumpObjTail o ++ '\x7d' :: rest) := by
  cases o with
  | nil => exact (by decide : isDigitC '\x7d' = false)
  | cons k v t' => exact (by decide : isDigitC ',' = false)

theorem stripQuote_quote (l : List Char) : stripQuote ('"' :: l) = some l := by
  rw [stripQuote]
  exact if_pos rfl

theorem expectColon_colon (l : List Char) : expectColon (':' :: l) = some l := by
  rw [expectColon]
  exact if_pos rfl

theorem skipWs_drop {c : Char} (l : List Char) (hc : isWsC c = true) :
    skipWs (c :: l) = skipWs l := by
  rw [skipWs, hc]
  simp

theorem parseDigits_natRepr {d : Char} {ds : List Char} (m : Nat) (rest : List Char)
    (hds : natRepr m = d :: ds) (hd : isDigitC d = true) (hrest : headNotDigit rest) :
    parseDigitsAux (d.toNat - 48) (ds ++ rest) = (m, rest) := by
  have h1 := parseDigitsAux_append m 0 rest
  simp only [Nat.zero_mul, Nat.zero_add] at h1
  rw [parseDigitsAux_stop m rest hrest] at h1
  rw [hds, List.cons_append, parseDigitsAux, hd] at h1
  simpa using h1

theorem negSucc_cast (m : Nat) : -((m + 1 : Nat) : Int) = Int.negSucc m := by
  rw [Int.negSucc_eq]
  push_cast
  ring

/-- Round-trip of the fuel-indexed parser against the serialiser: with
enough fuel, parsing a serialised value consumes exactly its
serialisation. -/
theorem parse_dump (f : Nat) :
    (∀ v rest, sizeV v ≤ f → headNotDigit rest →
      parseVal f (dumpV v ++ rest) = some (v, rest)) ∧
    (∀ a rest, sizeA a ≤ f →
      parseArrRest f (dumpArrTail a ++ ']' :: rest) = some (a, rest)) ∧
    (∀ o rest, sizeO o ≤ f →
      parseObjRest f (dumpObjTail o ++ '\x7d' :: rest) = some (o, rest)) := by
  induction f with
  | zero =>
    refine ⟨fun v _ hs _ => absurd hs ?_, fun a _ hs => absurd hs ?_,
      fun o _ hs => absurd hs ?_⟩
    · have := sizeV_pos v
      omega
    · have := sizeA_pos a
      omega
    · have := sizeO_pos o
      omega
  | succ f ih =>
    obtain ⟨ihV, ihA, ihO⟩ := ih
    refine ⟨?_, ?_, ?_⟩
    · intro v rest hs hrest
      cases v with
      | str s =>
        have hshape : dumpV (.str s) ++ rest =
            '"' :: (s.data.flatMap escChar ++ ('"' :: rest)) := by
          simp [dumpV, dumpStr]
        rw [hshape, parseVal_str, parseStrAux_body]
        rfl
      | int n =>
        cases n with
        | ofNat m =>
          obtain ⟨d, ds, hds, hd⟩ := natRepr_head m
          have hshape : dumpV (.int (.ofNat m)) ++ rest = d :: (ds ++ rest) := by
            simp [dumpV, intRepr, hds]
          rw [hshape, parseVal_digit f _ hd, parseDigits_natRepr m rest hds hd hrest]
          rfl
        | negSucc m =>
          obtain ⟨d, ds, hds, hd⟩ := natRepr_head (m + 1)
          have hshape : dumpV (.int (.negSucc m)) ++ rest =
              '-' :: (d :: (ds ++ rest)) := by
            simp [dumpV, intRepr, hds]
          rw [hshape, parseVal_neg, parseNegInt, hd]
          simp only [if_true]
          rw [parseDigits_natRepr (m + 1) rest hds hd hrest]
          simp only [negSucc_cast]
      | bool b =>
        cases b with
        | true =>
          have hshape : dumpV (.bool true) ++ rest = 't' :: 'r' :: 'u' :: 'e' :: rest := by
            simp [dumpV]
          rw [hshape, parseVal_true]
          rfl
        | false =>
          have hshape : dumpV (.bool false) ++ rest =
              'f' :: 'a' :: 'l' :: 's' :: 'e' :: rest := by
            simp [dumpV]
          rw [hshape, parseVal_false]
          rfl
      | null =>
        have hshape : dumpV .null ++ rest = 'n' :: 'u' :: 'l' :: 'l' :: rest := by
          simp [dumpV]
        rw [hshape, parseVal_null]
        rfl
      | arr a =>
        cases a with
        | nil =>
          have hshape : dumpV (.arr .nil) ++ rest = '[' :: ']' :: rest := by
            simp [dumpV]
          rw [hshape, parseVal_arrNil]
        | cons h t =>
          simp only [sizeV, sizeA] at hs
          have hsh : sizeV h ≤ f := by
            have := sizeA_pos t
            omega
          have hst : sizeA t ≤ f := by
            have := sizeV_pos h
            omega
          obtain ⟨d, ds, hds, hdw, hdne1, _⟩ := dumpV_head h
          have hshape : dumpV (.arr (.cons h t)) ++ rest =
              '[' :: (d :: (ds ++ (dumpArrTail t ++ (']' :: rest)))) := by
            simp [dumpV, hds]
          rw [hshape, parseVal_arr f d _ hdw hdne1]
          have hinner : d :: (ds ++ (dumpArrTail t ++ (']' :: rest))) =
              dumpV h ++ (dumpArrTail t ++ ']' :: rest) := by
            rw [hds]
            simp
          rw [hinner, ihV h _ hsh (hnd_arrTail t rest), Option.some_bind]
          dsimp only
          rw [ihA t rest hst, Option.map_some']
      | obj o =>
        cases o with
        | nil =>
          have hshape : dumpV (.obj .nil) ++ rest = '\x7b' :: '\x7d' :: rest := by
            simp [dumpV]
          rw [hshape, parseVal_objNil]
        | cons k v t =>
          simp only [sizeV, sizeO] at hs
          have hsv : sizeV v ≤ f := by
            have := sizeO_pos t
            omega
          have hst : sizeO t ≤ f := by
            have := sizeV_pos v
            omega
          have hshape : dumpV (.obj (.cons k v t)) ++ rest =
              '\x7b' :: ('"' :: (k.data.flatMap escChar ++ ('"' :: (':' :: (' ' ::
                (dumpV v ++ (dumpObjTail t ++ ('\x7d' :: rest)))))))) := by
            simp [dumpV, dumpStr]
          rw [hshape, parseVal_obj f '"' _ (by decide) (by decide), stripQuote_quote,
            Option.some_bind, parseStrAux_body, Option.some_bind]
          rw [show skipWs (':' :: (' ' :: (dumpV v ++ (dumpObjTail t ++ ('\x7d' :: rest))))) =
            ':' :: (' ' :: (dumpV v ++ (dumpObjTail t ++ ('\x7d' :: rest)))) from
            skipWs_keep _ (by decide)]
          rw [expectColon_colon, Option.some_bind, parseVal_ws f _ (by decide),
            ihV v _ hsv (hnd_objTail t rest), Option.some_bind]
          dsimp only
          rw [ihO t rest hst, Option.map_some']
    · intro a rest hs
      cases a with
      | nil =>
        have hshape : dumpArrTail JArr.nil ++ ']' :: rest = ']' :: rest := by
          simp [dumpArrTail]
        rw [hshape, parseArrRest_close]
      | cons h t =>
        simp only [sizeA] at hs
        have hsh : sizeV h ≤ f := by
          have := sizeA_pos t
          omega
        have hst : sizeA t ≤ f := by
          have := sizeV_pos h
          omega
        have hshape : dumpArrTail (.cons h t) ++ ']' :: rest =
            ',' :: (' ' :: (dumpV h ++ (dumpArrTail t ++ ']' :: rest))) := by
          simp [dumpArrTail]
        rw [hshape, parseArrRest_comma, parseVal_ws f _ (by decide),
          ihV h _ hsh (hnd_arrTail t rest), Option.some_bind]
        dsimp only
        rw [ihA t rest hst, Option.map_some']
    · intro o rest hs
      cases o with
      | nil =>
        have hshape : dumpObjTail JObj.nil ++ '\x7d' :: rest = '\x7d' :: rest := by
          simp [dumpObjTail]
        rw [hshape, parseObjRest_close]
      | cons k v t =>
        simp only [sizeO] at hs
        have hsv : sizeV v ≤ f := by
          have := sizeO_pos t
          omega
        have hst : sizeO t ≤ f := by
          have := sizeV_pos v
          omega
        have hshape : dumpObjTail (.cons k v t) ++ '\x7d' :: rest =
            ',' :: (' ' :: ('"' :: (k.data.flatMap escChar ++ ('"' :: (':' :: (' ' ::
              (dumpV v ++ (dumpObjTail t ++ ('\x7d' :: rest))))))))) := by
          simp [dumpObjTail, dumpStr]
        rw [hshape, parseObjRest_comma]
        rw [show skipWs (' ' :: ('"' :: (k.data.flatMap escChar ++ ('"' :: (':' :: (' ' ::
          (dumpV v ++ (dumpObjTail t ++ ('\x7d' :: rest))))))))) =
          '"' :: (k.data.flatMap escChar ++ ('"' :: (':' :: (' ' ::
          (dumpV v ++ (dumpObjTail t ++ ('\x7d' :: rest))))))) from by
          rw [skipWs_drop _ (by decide)]
          exact skipWs_keep _ (by decide)]
        rw [stripQuote_quote, Option.some_bind, parseStrAux_body, Option.some_bind]
        rw [show skipWs (':' :: (' ' :: (dumpV v ++ (dumpObjTail t ++ ('\x7d' :: rest))))) =
          ':' :: (' ' :: (dumpV v ++ (dumpObjTail t ++ ('\x7d' :: rest)))) from
          skipWs_keep _ (by decide)]
        rw [expectColon_colon, Option.some_bind, parseVal_ws f _ (by decide),
          ihV v _ hsv (hnd_objTail t rest), Option.some_bind]
        dsimp only
        rw [ihO t rest hst, Option.map_some']

theorem natRepr_ne_nil (m : Nat) : natRepr m ≠ [] := by
  obtain ⟨d, ds, hds, _⟩ := natRepr_head m
  simp [hds]

mutual

theorem dumpLenV (v : JValue) : sizeV v ≤ (dumpV v).length := by
  cases v with
  | str s =>
    simp [sizeV, dumpV, dumpStr]
  | int n =>
    cases n with
    | ofNat m =>
      have := natRepr_ne_nil m
      have hlen : 1 ≤ (natRepr m).length := by
        cases hh : natRepr m with
        | nil => exact absurd hh this
        | cons a b => simp
      simpa [sizeV, dumpV, intRepr] using hlen
    | negSucc m => simp [sizeV, dumpV, intRepr]
  | bool b => cases b <;> simp [sizeV, dumpV]
  | null => simp [sizeV, dumpV]
  | arr a =>
    cases a with
    | nil => simp [sizeV, sizeA, dumpV]
    | cons h t =>
      have h1 := dumpLenV h
      have h2 := dumpLenA t
      simp only [sizeV, sizeA, dumpV, List.length_cons, List.length_append,
        List.length_singleton]
      omega
  | obj o =>
    cases o with
    | nil => simp [sizeV, sizeO, dumpV]
    | cons k v t =>
      have h1 := dumpLenV v
      have h2 := dumpLenO t
      simp only [sizeV, sizeO, dumpV, List.length_cons, List.length_append,
        List.length_singleton]
      omega

theorem dumpLenA (a : JArr) : sizeA a ≤ (dumpArrTail a).length + 1 := by
  cases a with
  | nil => simp [sizeA, dumpArrTail]
  | cons h t =>
    have h1 := dumpLenV h
    have h2 := dumpLenA t
    simp only [sizeA, dumpArrTail, List.length_cons, List.length_append]
    omega

theorem dumpLenO (o : JObj) : sizeO o ≤ (dumpObjTail o).length + 1 := by
  cases o with
  | nil => simp [sizeO, dumpObjTail]
  | cons k v t =>
    have h1 := dumpLenV v
    have h2 := dumpLenO t
    simp only [sizeO, dumpObjTail, List.length_cons, List.length_append]
    omega

end

/-- `json.loads` inverts `json.dumps`. -/
theorem jparse_dumps (v : JValue) : jparse (dumps v) = some v := by
  have h := (parse_dump ((dumpV v).length + 1)).1 v []
    (le_trans (dumpLenV v) (by omega)) trivial
  rw [List.append_nil] at h
  unfold jparse
  have hdata : (dumps v).data = dumpV v := rfl
  rw [hdata, h]
  simp [skipWs]

/-! ### Configuration (`src/config/settings.py`, `CheckMKConfig`) -/

/-- Model of the `CheckMKConfig` dataclass fields (before
`__post_init__` validation/normalisation). -/
structure CheckMKConfig where
  server_url : String
  site : String
  username : String
  password : String
  verify_ssl : Bool := true
  timeout : Int := 30
  max_retries : Int := 3
  debug : Bool := false
  deriving DecidableEq

/-- Python `str.startswith`. -/
def strStartsWith (s p : String) : Bool := p.data.isPrefixOf s.data

/-- Python `str.endswith`. -/
def strEndsWith (s p : String) : Bool := p.data.isSuffixOf s.data

/-- Python `url.rstrip("/")`: remove every trailing slash. -/
def rstripSlash (s : String) : String := ⟨(s.data.reverse.dropWhile (fun c => c = '/')).reverse⟩

/-- Model of `CheckMKConfig._normalize_url`. -/
def normalizeUrl (url : String) : String :=
  if url = "" then url
  else
    let u1 := if strStartsWith url "http://" || strStartsWith url "https://" then url
      else "http://" ++ url
    if strEndsWith u1 "/" ∧ 1 < u1.length then rstripSlash u1 else u1

/-- Model of `CheckMKConfig.__post_init__`: validation (a raised
`ValueError` becomes `.error` with its message) followed by URL
normalisation. -/
def postInit (c : CheckMKConfig) : Except String CheckMKConfig :=
  if c.server_url = "" then .error "CHECKMK_SERVER_URL is required"
  else if c.username = "" then .error "CHECKMK_USERNAME is required"
  else if c.password = "" then .error "CHECKMK_PASSWORD is required"
  else if c.site = "" then .error "CHECKMK_SITE is required"
  else if c.timeout ≤ 0 then .error "timeout must be positive"
  else if c.max_retries < 0 then .error "max_retries must be non-negative"
  else .ok { c with server_url := normalizeUrl c.server_url }

/-! ### Endpoint detection (`CheckMKClient._detect_api_url`) -/

/-- Outcome of probing one candidate URL with
`urllib.request.urlopen(req, ...)`: a returned response with its
status, a raised `urllib.error.HTTPError`, or another raised
exception. -/
inductive ProbeOutcome where
  | status (code : Nat)
  | httpError (code : Nat) (reason : String)
  | exc (msg : String)
  deriving DecidableEq

/-- Decimal rendering of a number interpolated into an f-string. -/
def natToStr (n : Nat) : String := ⟨natRepr n⟩

/-- The fixed ordered candidate list `test_patterns` of
`_detect_api_url`. -/
def test_patterns (c : CheckMKConfig) : List String :=
  [c.server_url ++ "/cmk/check_mk/api/1.0",
    c.server_url ++ "/" ++ c.site ++ "/check_mk/api/1.0",
    c.server_url ++ "/check_mk/api/1.0",
    c.server_url ++ "/api/1.0",
    c.server_url ++ "/" ++ c.site ++ "/cmk/check_mk/api/1.0"]

/-- The probe loop of `_detect_api_url`, accumulating the
`debug_results` entries exactly as the source appends them. -/
def detectLoop (probe : String → ProbeOutcome) :
    List String → List String → (String × List String) ⊕ List String
  | [], acc => .inr acc
  | p :: rest, acc =>
    let acc1 := acc ++ ["Testing: " ++ p ++ "/version"]
    match probe p with
    | .status s =>
      if s = 200 then .inl (p, acc1 ++ ["SUCCESS: " ++ p])
      else detectLoop probe rest (acc1 ++ ["HTTP " ++ natToStr s ++ ": " ++ p])
    | .httpError code reason =>
      detectLoop probe rest (acc1 ++ ["HTTP " ++ natToStr code ++ " (" ++ reason ++ "): " ++ p])
    | .exc m => detectLoop probe rest (acc1 ++ ["ERROR (" ++ m ++ "): " ++ p])

/-- Model of `CheckMKClient._detect_api_url`: returns the selected base
URL and the retained `_debug_results` trace (which, in the fallback
case, includes the `FALLBACK:` entry appended after the assignment,
because the Python list is aliased). -/
def detect_api_url (c : CheckMKConfig) (probe : String → ProbeOutcome) :
    String × List String :=
  match detectLoop probe (test_patterns c) [] with
  | .inl r => r
  | .inr acc =>
    let fallback_url := c.server_url ++ "/cmk/check_mk/api/1.0"
    (fallback_url, acc ++ ["FALLBACK: " ++ fallback_url])

theorem detectLoop_fail (probe : String → ProbeOutcome) (pats : List String) :
    ∀ acc, (∀ p ∈ pats, probe p ≠ .status 200) →
      ∃ tr, detectLoop probe pats acc = .inr tr ∧ tr.length = acc.length + 2 * pats.length := by
  induction pats with
  | nil => exact fun acc _ => ⟨acc, rfl, by simp⟩
  | cons p rest ih =>
    intro acc h
    have hp : probe p ≠ .status 200 := h p (by simp)
    rw [detectLoop]
    cases hpo : probe p with
    | status s =>
      have hs : ¬ s = 200 := by
        intro hs
        exact hp (by rw [hpo, hs])
      dsimp only
      rw [if_neg hs]
      obtain ⟨tr, htr, hlen⟩ := ih _ (fun q hq => h q (by simp [hq]))
      refine ⟨tr, htr, ?_⟩
      rw [hlen]
      simp
      omega
    | httpError code reason =>
      obtain ⟨tr, htr, hlen⟩ := ih _ (fun q hq => h q (by simp [hq]))
      refine ⟨tr, htr, ?_⟩
      rw [hlen]
      simp
      omega
    | exc m =>
      obtain ⟨tr, htr, hlen⟩ := ih _ (fun q hq => h q (by simp [hq]))
      refine ⟨tr, htr, ?_⟩
      rw [hlen]
      simp
      omega

theorem detectLoop_first (probe : String → ProbeOutcome) (l1 : List String) (p : String)
    (l2 : List String) :
    ∀ acc, (∀ q ∈ l1, probe q ≠ .status 200) → probe p = .status 200 →
      ∃ tr, detectLoop probe (l1 ++ p :: l2) acc = .inl (p, tr) := by
  induction l1 with
  | nil =>
    intro acc _ hp
    rw [List.nil_append, detectLoop, hp]
    dsimp only
    rw [if_pos rfl]
    exact ⟨_, rfl⟩
  | cons q rest ih =>
    intro acc h hp
    have hq : probe q ≠ .status 200 := h q (by simp)
    rw [List.cons_append, detectLoop]
    cases hpo : probe q with
    | status s =>
      have hs : ¬ s = 200 := by
        intro hs
        exact hq (by rw [hpo, hs])
      dsimp only
      rw [if_neg hs]
      exact ih _ (fun x hx => h x (by simp [hx])) hp
    | httpError code reason => exact ih _ (fun x hx => h x (by simp [hx])) hp
    | exc m => exact ih _ (fun x hx => h x (by simp [hx])) hp

/-! ### Python `str()` of parameter values -/

/-- One character inside a Python string `repr` with quote character
`q`: backslash and the quote are escaped, the common control characters
get shorthand escapes, other control characters (and DEL) become
`\xXX`. Unicode printability is approximated: every character at or
above `0x20` other than `0x7f` is kept verbatim. -/
def pyReprEsc (q c : Char) : List Char :=
  if c = '\\' then ['\\', '\\']
  else if c = q then ['\\', q]
  else if c = '\n' then ['\\', 'n']
  else if c = '\r' then ['\\', 'r']
  else if c = '\t' then ['\\', 't']
  else if c.toNat < 0x20 ∨ c.toNat = 0x7f then
    ['\\', 'x', hexDigL (c.toNat / 16), hexDigL (c.toNat % 16)]
  else [c]

/-- Python `repr` of a string: single quotes, switching to double
quotes when the text contains a single quote but no double quote. -/
def pyReprStr (s : String) : List Char :=
  let q := if s.data.contains '\'' && !(s.data.contains '"') then '"' else '\''
  (q :: s.data.flatMap (pyReprEsc q)) ++ [q]

mutual

/-- Python `repr` of a parameter value. -/
def pyReprV : JValue → List Char
  | .str s => pyReprStr s
  | .int n => intRepr n
  | .bool true => ['T', 'r', 'u', 'e']
  | .bool false => ['F', 'a', 'l', 's', 'e']
  | .null => ['N', 'o', 'n', 'e']
  | .arr .nil => ['[', ']']
  | .arr (.cons h t) => '[' :: (pyReprV h ++ pyReprArrTail t ++ [']'])
  | .obj .nil => ['\x7b', '\x7d']
  | .obj (.cons k v t) =>
    '\x7b' :: (pyReprStr k ++ (':' :: ' ' :: (pyReprV v ++ pyReprObjTail t ++ ['\x7d'])))

/-- The `", item"` continuations of a Python list repr. -/
def pyReprArrTail : JArr → List Char
  | .nil => []
  | .cons h t => ',' :: ' ' :: (pyReprV h ++ pyReprArrTail t)

/-- The `", key: value"` continuations of a Python dict repr. -/
def pyReprObjTail : JObj → List Char
  | .nil => []
  | .cons k v t => ',' :: ' ' :: (pyReprStr k ++ (':' :: ' ' :: (pyReprV v ++ pyReprObjTail t)))

end

/-- Python `str(value)`: a string is itself; every other value renders
via its `repr` (which for ints, booleans and `None` coincides with
`str`). -/
def pyStr : JValue → String
  | .str s => s
  | v => ⟨pyReprV v⟩

/-! ### Parameter encoding and URL construction (`CheckMKClient.request`) -/

/-- Encoding of one `params` entry, following the loop body in
`CheckMKClient.request`: a list under the reserved key `columns`
becomes repeated `columns=` pairs, a dict under the reserved key
`query` is JSON-serialised into a single `query=` pair, and everything
else becomes a single percent-encoded `key=str(value)` pair. -/
def encodeParam : String × JValue → List String
  | (k, .arr vs) =>
    if k = "columns" then vs.toList.map (fun col => "columns=" ++ quote (pyStr col))
    else [k ++ "=" ++ quote (pyStr (.arr vs))]
  | (k, .obj d) =>
    if k = "query" then ["query=" ++ quote (dumps (.obj d))]
    else [k ++ "=" ++ quote (pyStr (.obj d))]
  | (k, v) => [k ++ "=" ++ quote (pyStr v)]

/-- The `url_params` list built by `CheckMKClient.request` from the
`params` dict (given as an association list in insertion order). -/
def buildUrlParams (ps : List (String × JValue)) : List String := ps.flatMap encodeParam

/-- URL construction in `CheckMKClient.request`: the API-prefixed or
`/cmk/`-prefixed endpoint, plus `?`-joined parameters when present. -/
def buildUrl (api_base_url server_url endpoint : String) ( use_api_prefix : Bool)
    (params : Option (List (String × JValue))) : String :=
  let url := if use_api_prefix then api_base_url ++ "/" ++ endpoint
    else server_url ++ "/cmk/" ++ endpoint
  match params with
  | none => url
  | some ps =>
    if ps.isEmpty then url
    else
      let url_params := buildUrlParams ps
      if url_params.isEmpty then url
      else url ++ "?" ++ String.intercalate "&" url_params

/-! ### Error taxonomy (`src/api/exceptions.py`) and request execution -/

/-- The typed errors raised by the client, as a closed tagged union:
`CheckMKConnectionError`, `CheckMKAuthenticationError`,
`CheckMKPermissionError`, `CheckMKNotFoundError` and `CheckMKAPIError`
(the generic API error). `CheckMKConnectionError` is raised with only a
message; the others carry the HTTP status code and the best-effort
decoded response body. -/
inductive CheckMKException where
  | connectionError (msg : String)
  | authenticationError (msg : String) (statusCode : Nat) (responseData : JValue)
  | permissionError (msg : String) (statusCode : Nat) (responseData : JValue)
  | notFoundError (msg : String) (statusCode : Nat) (responseData : JValue)
  | apiError (msg : String) (statusCode : Nat) (responseData : JValue)
  deriving DecidableEq

/-- The result dict of a successful `CheckMKClient.request`. -/
structure ResponseEnvelope where
  status : Nat
  data : JValue
  success : Bool
  raw_content : String
  headers : List (String × String)
  deriving DecidableEq

/-- A Python exception reaching `_handle_general_error`, classified by
the `isinstance` checks the source performs. `urlError` models
`urllib.error.URLError` (a subclass of `OSError`), `timeoutError`
models `TimeoutError`, `osError` any other `OSError`, `stopIteration`
a `StopIteration`, and `otherExc` every remaining exception. -/
inductive PyExc where
  | timeoutError (msg : String)
  | urlError (msg : String)
  | osError (msg : String)
  | stopIteration (msg : String)
  | otherExc (msg : String)
  deriving DecidableEq

/-- `str(error)`. -/
def PyExc.msg : PyExc → String
  | .timeoutError m => m
  | .urlError m => m
  | .osError m => m
  | .stopIteration m => m
  | .otherExc m => m

/-- `isinstance(error, (TimeoutError, OSError))` — `TimeoutError` and
`URLError` are `OSError` subclasses. -/
def PyExc.isTimeoutOrOS : PyExc → Bool
  | .timeoutError _ => true
  | .urlError _ => true
  | .osError _ => true
  | _ => false

/-- `isinstance(error, TimeoutError)`. -/
def PyExc.isTimeoutError : PyExc → Bool
  | .timeoutError _ => true
  | _ => false

/-- `isinstance(error, urllib.error.URLError)`. -/
def PyExc.isURLError : PyExc → Bool
  | .urlError _ => true
  | _ => false

/-- `isinstance(error, StopIteration)`. -/
def PyExc.isStopIteration : PyExc → Bool
  | .stopIteration _ => true
  | _ => false

/-- Python `str.lower` (ASCII-relevant part). -/
def toLowerStr (s : String) : String := ⟨s.data.map Char.toLower⟩

/-- Substring test on character lists. -/
def hasSubstr (needle : List Char) : List Char → Bool
  | [] => needle.isPrefixOf []
  | c :: rest => needle.isPrefixOf (c :: rest) || hasSubstr needle rest

/-- `"timeout" in str(error).lower()`. -/
def containsTimeout (s : String) : Bool := hasSubstr "timeout".data (toLowerStr s).data

/-- Outcome of one `urllib.request.urlopen` call inside
`CheckMKClient.request`: a returned response (status, decoded body,
headers), a raised `urllib.error.HTTPError` (code, reason, and the
body `error.read()` yields — `none` when reading raises), or another
raised exception. -/
inductive HttpOutcome where
  | response (status : Nat) (body : String) (headers : List (String × String))
  | httpError (code : Nat) (reason : String) (errBody : Option String)
  | exc (e : PyExc)
  deriving DecidableEq

/-- The `error_data` computed at the top of `_handle_http_error`:
`json.loads(error.read().decode())`, falling back to
`{"error": error.reason}` when reading or decoding fails. -/
def httpErrorData (reason : String) (errBody : Option String) : JValue :=
  match errBody with
  | some b =>
    match jparse b with
    | some j => j
    | none => JValue.obj (.cons "error" (.str reason) .nil)
  | none => JValue.obj (.cons "error" (.str reason) .nil)

/-- The 2xx-path body handling of `CheckMKClient.request`: an empty
body parses to the empty dict; a JSON decoding failure raises
`CheckMKAPIError` carrying the decode failure message (the model keeps
the constant prefix of `"Invalid JSON response: ..."`), the status and
the raw body. -/
def parseBody (status : Nat) (body : String) (headers : List (String × String)) :
    Except CheckMKException ResponseEnvelope :=
  if body = "" then .ok ⟨status, .obj .nil, true, body, headers⟩
  else
    match jparse body with
    | some parsed => .ok ⟨status, parsed, true, body, headers⟩
    | none =>
      .error (.apiError "Invalid JSON response" status (.obj (.cons "raw" (.str body) .nil)))

/-- Model of `CheckMKClient.request` together with the inlined
`_handle_http_error` and `_handle_general_error`, instrumented to
return additionally the number of wire requests issued and the list of
back-off sleeps (`time.sleep(2**retry_count)`) performed. The network
is the oracle `responses`, mapping the wire-request index and the
request URL to the outcome of `urllib.request.urlopen`. -/
def requestT (cfg : CheckMKConfig) (api_base_url : String)
    (responses : Nat → String → HttpOutcome) (endpoint method : String)
    (data : Option JValue) (params : Option (List (String × JValue)))
    (custom_headers : Option (List (String × String))) (retry_count : Nat)
    ( use_api_prefix : Bool) :
    Except CheckMKException ResponseEnvelope × Nat × List Nat :=
  let url := buildUrl api_base_url cfg.server_url endpoint use_api_prefix params
  match responses retry_count url with
  | .response status body headers => (parseBody status body headers, 1, [])
  | .httpError code reason errBody =>
    -- _handle_http_error: retry transient codes while budget remains,
    -- otherwise classify.
    if h : (code = 500 ∨ code = 502 ∨ code = 503 ∨ code = 504) ∧
        (retry_count : Int) < cfg.max_retries then
      let r := requestT cfg api_base_url responses endpoint method data params custom_headers
        (retry_count + 1) use_api_prefix
      (r.1, r.2.1 + 1, 2 ^ retry_count :: r.2.2)
    else if code = 401 then
      (.error (.authenticationError ("Authentication failed: " ++ reason) code
        (httpErrorData reason errBody)), 1, [])
    else if code = 403 then
      (.error (.permissionError ("Permission denied: " ++ reason) code
        (httpErrorData reason errBody)), 1, [])
    else if code = 404 then
      (.error (.notFoundError ("Resource not found: " ++ reason) code
        (httpErrorData reason errBody)), 1, [])
    else
      (.error (.apiError ("HTTP " ++ natToStr code ++ ": " ++ reason) code
        (httpErrorData reason errBody)), 1, [])
  | .exc e =>
    -- _handle_general_error, in source order: timeouts and URL errors
    -- are terminal, other non-StopIteration errors retry while budget
    -- remains.
    if e.isTimeoutOrOS && containsTimeout e.msg then
      (.error (.connectionError ("Request timeout: " ++ e.msg)), 1, [])
    else if e.isTimeoutError then
      (.error (.connectionError ("Request timeout: " ++ e.msg)), 1, [])
    else if e.isURLError then
      (.error (.connectionError ("Connection error: " ++ e.msg)), 1, [])
    else if h : (retry_count : Int) < cfg.max_retries ∧ ¬ e.isStopIteration then
      let r := requestT cfg api_base_url responses endpoint method data params custom_headers
        (retry_count + 1) use_api_prefix
      (r.1, r.2.1 + 1, 2 ^ retry_count :: r.2.2)
    else if e.isStopIteration then
      (.error (.connectionError "Mock iteration exhausted"), 1, [])
    else
      (.error (.connectionError ("Connection failed: " ++ e.msg)), 1, [])
termination_by (cfg.max_retries + 1 - retry_count).toNat
decreasing_by
  · simp_wf
    omega
  · simp_wf
    omega

/-- The result of `CheckMKClient.request` (success envelope or raised
typed error). -/
def request (cfg : CheckMKConfig) (api_base_url : String)
    (responses : Nat → String → HttpOutcome) (endpoint method : String)
    (data : Option JValue) (params : Option (List (String × JValue)))
    (custom_headers : Option (List (String × String))) (retry_count : Nat)
    ( use_api_prefix : Bool) : Except CheckMKException ResponseEnvelope :=
  (requestT cfg api_base_url responses endpoint method data params custom_headers retry_count
    use_api_prefix).1

/-- The number of wire requests a call to `CheckMKClient.request`
issues. -/
def requestWireCount (cfg : CheckMKConfig) (api_base_url : String)
    (responses : Nat → String → HttpOutcome) (endpoint method : String)
    (data : Option JValue) (params : Option (List (String × JValue)))
    (custom_headers : Option (List (String × String))) (retry_count : Nat)
    ( use_api_prefix : Bool) : Nat :=
  (requestT cfg api_base_url responses endpoint method data params custom_headers retry_count
    use_api_prefix).2.1

/-- The back-off sleeps (in seconds) a call to `CheckMKClient.request`
performs, in order. -/
def requestSleeps (cfg : CheckMKConfig) (api_base_url : String)
    (responses : Nat → String → HttpOutcome) (endpoint method : String)
    (data : Option JValue) (params : Option (List (String × JValue)))
    (custom_headers : Option (List (String × String))) (retry_count : Nat)
    ( use_api_prefix : Bool) : List Nat :=
  (requestT cfg api_base_url responses endpoint method data params custom_headers retry_count
    use_api_prefix).2.2

theorem requestT_response (cfg : CheckMKConfig) (api_base_url : String)
    (responses : Nat → String → HttpOutcome) (endpoint method : String)
    (data : Option JValue) (params : Option (List (String × JValue)))
    (custom_headers : Option (List (String × String))) (retry_count : Nat)
    ( use_api_prefix : Bool) (status : Nat) (body : String) (headers : List (String × String))
    (hres : responses retry_count
      (buildUrl api_base_url cfg.server_url endpoint use_api_prefix params) =
      .response status body headers) :
    requestT cfg api_base_url responses endpoint method data params custom_headers retry_count
      use_api_prefix = (parseBody status body headers, 1, []) := by
  conv_lhs => rw [requestT]
  dsimp only
  rw [hres]

theorem requestT_httpError_retry (cfg : CheckMKConfig) (api_base_url : String)
    (responses : Nat → String → HttpOutcome) (endpoint method : String)
    (data : Option JValue) (params : Option (List (String × JValue)))
    (custom_headers : Option (List (String × String))) (retry_count : Nat)
    ( use_api_prefix : Bool) (code : Nat) (reason : String) (errBody : Option String)
    (hres : responses retry_count
      (buildUrl api_base_url cfg.server_url endpoint use_api_prefix params) =
      .httpError code reason errBody)
    (hcode : code = 500 ∨ code = 502 ∨ code = 503 ∨ code = 504)
    (hretry : (retry_count : Int) < cfg.max_retries) :
    requestT cfg api_base_url responses endpoint method data params custom_headers retry_count
      use_api_prefix =
      ((requestT cfg api_base_url responses endpoint method data params custom_headers
          (retry_count + 1) use_api_prefix).1,
        (requestT cfg api_base_url responses endpoint method data params custom_headers
          (retry_count + 1) use_api_prefix).2.1 + 1,
        2 ^ retry_count :: (requestT cfg api_base_url responses endpoint method data params
          custom_headers (retry_count + 1) use_api_prefix).2.2) := by
  conv_lhs => rw [requestT]
  dsimp only
  rw [hres]
  dsimp only
  rw [dif_pos ⟨hcode, hretry⟩]

theorem requestT_httpError_terminal (cfg : CheckMKConfig) (api_base_url : String)
    (responses : Nat → String → HttpOutcome) (endpoint method : String)
    (data : Option JValue) (params : Option (List (String × JValue)))
    (custom_headers : Option (List (String × String))) (retry_count : Nat)
    ( use_api_prefix : Bool) (code : Nat) (reason : String) (errBody : Option String)
    (hres : responses retry_count
      (buildUrl api_base_url cfg.server_url endpoint use_api_prefix params) =
      .httpError code reason errBody)
    (hterm : ¬ ((code = 500 ∨ code = 502 ∨ code = 503 ∨ code = 504) ∧
      (retry_count : Int) < cfg.max_retries)) :
    requestT cfg api_base_url responses endpoint method data params custom_headers retry_count
      use_api_prefix =
      (if code = 401 then
        (Except.error (.authenticationError ("Authentication failed: " ++ reason) code
          (httpErrorData reason errBody)), 1, [])
      else if code = 403 then
        (Except.error (.permissionError ("Permission denied: " ++ reason) code
          (httpErrorData reason errBody)), 1, [])
      else if code = 404 then
        (Except.error (.notFoundError ("Resource not found: " ++ reason) code
          (httpErrorData reason errBody)), 1, [])
      else
        (Except.error (.apiError ("HTTP " ++ natToStr code ++ ": " ++ reason) code
          (httpErrorData reason errBody)), 1, [])) := by
  conv_lhs => rw [requestT]
  dsimp only
  rw [hres]
  dsimp only
  rw [dif_neg hterm]

theorem requestT_exc (cfg : CheckMKConfig) (api_base_url : String)
    (responses : Nat → String → HttpOutcome) (endpoint method : String)
    (data : Option JValue) (params : Option (List (String × JValue)))
    (custom_headers : Option (List (String × String))) (retry_count : Nat)
    ( use_api_prefix : Bool) (e : PyExc)
    (hres : responses retry_count
      (buildUrl api_base_url cfg.server_url endpoint use_api_prefix params) = .exc e) :
    requestT cfg api_base_url responses endpoint method data params custom_headers retry_count
      use_api_prefix =
      (if e.isTimeoutOrOS && containsTimeout e.msg then
        (Except.error (.connectionError ("Request timeout: " ++ e.msg)), 1, [])
      else if e.isTimeoutError then
        (Except.error (.connectionError ("Request timeout: " ++ e.msg)), 1, [])
      else if e.isURLError then
        (Except.error (.connectionError ("Connection error: " ++ e.msg)), 1, [])
      else if _h : (retry_count : Int) < cfg.max_retries ∧ ¬ e.isStopIteration then
        ((requestT cfg api_base_url responses endpoint method data params custom_headers
            (retry_count + 1) use_api_prefix).1,
          (requestT cfg api_base_url responses endpoint method data params custom_headers
            (retry_count + 1) use_api_prefix).2.1 + 1,
          2 ^ retry_count :: (requestT cfg api_base_url responses endpoint method data params
            custom_headers (retry_count + 1) use_api_prefix).2.2)
      else if e.isStopIteration then
        (Except.error (.connectionError "Mock iteration exhausted"), 1, [])
      else
        (Except.error (.connectionError ("Connection failed: " ++ e.msg)), 1, [])) := by
  conv_lhs => rw [requestT]
  dsimp only
  rw [hres]

theorem requestT_timeout (cfg : CheckMKConfig) (api_base_url : String)
    (responses : Nat → String → HttpOutcome) (endpoint method : String)
    (data : Option JValue) (params : Option (List (String × JValue)))
    (custom_headers : Option (List (String × String))) (retry_count : Nat)
    ( use_api_prefix : Bool) (m : String)
    (hres : responses retry_count
      (buildUrl api_base_url cfg.server_url endpoint use_api_prefix params) =
      .exc (.timeoutError m)) :
    requestT cfg api_base_url responses endpoint method data params custom_headers retry_count
      use_api_prefix =
      (Except.error (.connectionError ("Request timeout: " ++ m)), 1, []) := by
  rw [requestT_exc _ _ _ _ _ _ _ _ _ _ _ hres]
  by_cases hct : containsTimeout m
  · rw [if_pos (by simp [PyExc.isTimeoutOrOS, PyExc.msg, hct])]
    rfl
  · rw [if_neg (by simp [PyExc.isTimeoutOrOS, PyExc.msg, hct]),
      if_pos (by simp [PyExc.isTimeoutError])]
    rfl

theorem requestT_urlError (cfg : CheckMKConfig) (api_base_url : String)
    (responses : Nat → String → HttpOutcome) (endpoint method : String)
    (data : Option JValue) (params : Option (List (String × JValue)))
    (custom_headers : Option (List (String × String))) (retry_count : Nat)
    ( use_api_prefix : Bool) (m : String) (hct : containsTimeout m = false)
    (hres : responses retry_count
      (buildUrl api_base_url cfg.server_url endpoint use_api_prefix params) =
      .exc (.urlError m)) :
    requestT cfg api_base_url responses endpoint method data params custom_headers retry_count
      use_api_prefix =
      (Except.error (.connectionError ("Connection error: " ++ m)), 1, []) := by
  rw [requestT_exc _ _ _ _ _ _ _ _ _ _ _ hres]
  rw [if_neg (by simp [PyExc.isTimeoutOrOS, PyExc.msg, hct]),
    if_neg (by simp [PyExc.isTimeoutError]), if_pos (by simp [PyExc.isURLError])]
  rfl

theorem req503_then_200 (cfg : CheckMKConfig) (api_base_url : String)
    (responses : Nat → String → HttpOutcome) (endpoint method : String)
    (data : Option JValue) (params : Option (List (String × JValue)))
    (custom_headers : Option (List (String × String))) ( use_api_prefix : Bool) (N : Nat)
    (hmr : cfg.max_retries = N)
    (h1 : ∀ i u, responses i u =
      if i < N then .httpError 503 "Service Unavailable" none else .response 200 "" []) :
    ∀ k n, n + k = N →
      requestT cfg api_base_url responses endpoint method data params custom_headers n
        use_api_prefix =
        (Except.ok ⟨200, .obj .nil, true, "", []⟩, k + 1,
          (List.range k).map (fun j => 2 ^ (n + j))) := by
  intro k
  induction k with
  | zero =>
    intro n hn
    have hr : responses n (buildUrl api_base_url cfg.server_url endpoint use_api_prefix params) =
        .response 200 "" [] := by
      rw [h1, if_neg (by omega)]
    rw [requestT_response _ _ _ _ _ _ _ _ _ _ _ _ _ hr]
    simp [parseBody]
  | succ k ih =>
    intro n hn
    have hr : responses n (buildUrl api_base_url cfg.server_url endpoint use_api_prefix params) =
        .httpError 503 "Service Unavailable" none := by
      rw [h1, if_pos (by omega)]
    rw [requestT_httpError_retry _ _ _ _ _ _ _ _ _ _ _ _ _ hr (by omega)
      (by rw [hmr]; omega)]
    rw [ih (n + 1) (by omega)]
    dsimp only
    have hsl : (List.range (k + 1)).map (fun j => 2 ^ (n + j)) =
        2 ^ n :: (List.range k).map (fun j => 2 ^ (n + 1 + j)) := by
      rw [List.range_succ_eq_map, List.map_cons, List.map_map]
      have hcomp : (fun j => 2 ^ (n + j)) ∘ Nat.succ = fun j => 2 ^ (n + 1 + j) := by
        funext j
        simp only [Function.comp_apply]
        congr 1
        omega
      rw [hcomp]
      simp
    rw [hsl]

theorem req503_forever (cfg : CheckMKConfig) (api_base_url : String)
    (responses : Nat → String → HttpOutcome) (endpoint method : String)
    (data : Option JValue) (params : Option (List (String × JValue)))
    (custom_headers : Option (List (String × String))) ( use_api_prefix : Bool) (N : Nat)
    (hmr : cfg.max_retries = N)
    (h1 : ∀ i u, responses i u = .httpError 503 "Service Unavailable" none) :
    ∀ k n, n + k = N →
      requestT cfg api_base_url responses endpoint method data params custom_headers n
        use_api_prefix =
        (Except.error (.apiError "HTTP 503: Service Unavailable" 503
          (.obj (.cons "error" (.str "Service Unavailable") .nil))), k + 1,
          (List.range k).map (fun j => 2 ^ (n + j))) := by
  intro k
  induction k with
  | zero =>
    intro n hn
    rw [requestT_httpError_terminal _ _ _ _ _ _ _ _ _ _ _ _ _ (h1 n _)
      (by rw [hmr]; intro hcc; omega)]
    rw [if_neg (by omega), if_neg (by omega), if_neg (by omega)]
    have hstr : "HTTP " ++ natToStr 503 ++ ": " ++ "Service Unavailable" =
        "HTTP 503: Service Unavailable" := by decide
    rw [hstr]
    simp [httpErrorData]
  | succ k ih =>
    intro n hn
    rw [requestT_httpError_retry _ _ _ _ _ _ _ _ _ _ _ _ _ (h1 n _) (by omega)
      (by rw [hmr]; omega)]
    rw [ih (n + 1) (by omega)]
    dsimp only
    have hsl : (List.range (k + 1)).map (fun j => 2 ^ (n + j)) =
        2 ^ n :: (List.range k).map (fun j => 2 ^ (n + 1 + j)) := by
      rw [List.range_succ_eq_map, List.map_cons, List.map_map]
      have hcomp : (fun j => 2 ^ (n + j)) ∘ Nat.succ = fun j => 2 ^ (n + 1 + j) := by
        funext j
        simp only [Function.comp_apply]
        congr 1
        omega
      rw [hcomp]
      simp
    rw [hsl]

theorem reqOtherExc (cfg : CheckMKConfig) (api_base_url : String)
    (responses : Nat → String → HttpOutcome) (endpoint method : String)
    (data : Option JValue) (params : Option (List (String × JValue)))
    (custom_headers : Option (List (String × String))) ( use_api_prefix : Bool) (N : Nat)
    (m : String) (hmr : cfg.max_retries = N)
    (h1 : ∀ i u, responses i u = .exc (.otherExc m)) :
    ∀ k n, n + k = N →
      requestT cfg api_base_url responses endpoint method data params custom_headers n
        use_api_prefix =
        (Except.error (.connectionError ("Connection failed: " ++ m)), k + 1,
          (List.range k).map (fun j => 2 ^ (n + j))) := by
  intro k
  induction k with
  | zero =>
    intro n hn
    rw [requestT_exc _ _ _ _ _ _ _ _ _ _ _ (h1 n _)]
    rw [if_neg (by simp [PyExc.isTimeoutOrOS]), if_neg (by simp [PyExc.isTimeoutError]),
      if_neg (by simp [PyExc.isURLError]),
      dif_neg (by rw [hmr]; intro hcc; omega),
      if_neg (by simp [PyExc.isStopIteration])]
    simp [PyExc.msg]
  | succ k ih =>
    intro n hn
    rw [requestT_exc _ _ _ _ _ _ _ _ _ _ _ (h1 n _)]
    rw [if_neg (by simp [PyExc.isTimeoutOrOS]), if_neg (by simp [PyExc.isTimeoutError]),
      if_neg (by simp [PyExc.isURLError]),
      dif_pos ⟨by rw [hmr]; omega, by simp [PyExc.isStopIteration]⟩]
    rw [ih (n + 1) (by omega)]
    dsimp only
    have hsl : (List.range (k + 1)).map (fun j => 2 ^ (n + j)) =
        2 ^ n :: (List.range k).map (fun j => 2 ^ (n + 1 + j)) := by
      rw [List.range_succ_eq_map, List.map_cons, List.map_map]
      have hcomp : (fun j => 2 ^ (n + j)) ∘ Nat.succ = fun j => 2 ^ (n + 1 + j) := by
        funext j
        simp only [Function.comp_apply]
        congr 1
        omega
      rw [hcomp]
      simp
    rw [hsl]

/-! ### Query-string structure lemmas -/

theorem eqfree_prefix (x : List Char) : ∀ (a b : List Char), '=' ∉ a → '=' ∉ b →
    ((b ++ ['=']) <+: (a ++ '=' :: x) ↔ a = b) := by
  intro a
  induction a with
  | nil =>
    intro b _ hb
    cases b with
    | nil => simp
    | cons c b' =>
      have hc : ¬ c = '=' := fun h => hb (h ▸ List.mem_cons_self c b')
      simp [List.cons_prefix_cons, hc]
  | cons c a' ih =>
    intro b ha hb
    cases b with
    | nil =>
      have hc : ¬ '=' = c := fun h => ha (h ▸ List.mem_cons_self c a')
      simp [List.cons_prefix_cons, hc]
    | cons c' b' =>
      simp only [List.cons_append, List.cons_prefix_cons]
      rw [ih b' (fun hm => ha (List.mem_cons_of_mem c hm))
        (fun hm => hb (List.mem_cons_of_mem c' hm))]
      constructor
      · rintro ⟨hc, heq⟩
        rw [heq, hc]
      · intro h
        injection h with h1 h2
        exact ⟨h1.symm, h2⟩

theorem strStartsWith_append (p x : String) : strStartsWith (p ++ x) p = true := by
  unfold strStartsWith
  rw [List.isPrefixOf_iff_prefix, String.data_append]
  exact List.prefix_append _ _

theorem pair_not_starts (k K q : String) (hk : '=' ∉ k.data) (hK : '=' ∉ K.data)
    (hne : ¬ k = K) : strStartsWith (k ++ "=" ++ q) (K ++ "=") = false := by
  unfold strStartsWith
  rw [Bool.eq_false_iff]
  intro hpre
  rw [List.isPrefixOf_iff_prefix] at hpre
  have hd1 : (K ++ "=").data = K.data ++ ['='] := by
    rw [String.data_append]
  have hd2 : (k ++ "=" ++ q).data = k.data ++ '=' :: q.data := by
    rw [String.data_append, String.data_append]
    simp
  rw [hd1, hd2, eqfree_prefix q.data k.data K.data hk hK] at hpre
  have hkk : k = K := by
    cases k
    cases K
    exact congrArg String.mk hpre
  exact hne hkk

/-- Every pair emitted by `encodeParam (k, v)` has the shape
`k ++ "=" ++ suffix`. -/
theorem encodeParam_pairs (k : String) (v : JValue) :
    ∀ p ∈ encodeParam (k, v), ∃ q, p = k ++ "=" ++ q := by
  intro p hp
  cases v with
  | arr vs =>
    by_cases hk : k = "columns"
    · subst hk
      rw [encodeParam, if_pos rfl] at hp
      rw [List.mem_map] at hp
      obtain ⟨col, _, hcol⟩ := hp
      refine ⟨quote (pyStr col), ?_⟩
      rw [← hcol, show ("columns=" : String) = "columns" ++ "=" from by decide]
    · rw [encodeParam, if_neg hk, List.mem_singleton] at hp
      exact ⟨quote (pyStr (.arr vs)), hp⟩
  | obj d =>
    by_cases hk : k = "query"
    · subst hk
      rw [encodeParam, if_pos rfl, List.mem_singleton] at hp
      refine ⟨quote (dumps (.obj d)), ?_⟩
      rw [hp, show ("query=" : String) = "query" ++ "=" from by decide]
    · rw [encodeParam, if_neg hk, List.mem_singleton] at hp
      exact ⟨quote (pyStr (.obj d)), hp⟩
  | str s =>
    rw [show encodeParam (k, .str s) = [k ++ "=" ++ quote (pyStr (.str s))] from rfl,
      List.mem_singleton] at hp
    exact ⟨quote (pyStr (.str s)), hp⟩
  | int n =>
    rw [show encodeParam (k, .int n) = [k ++ "=" ++ quote (pyStr (.int n))] from rfl,
      List.mem_singleton] at hp
    exact ⟨quote (pyStr (.int n)), hp⟩
  | bool b =>
    rw [show encodeParam (k, .bool b) = [k ++ "=" ++ quote (pyStr (.bool b))] from rfl,
      List.mem_singleton] at hp
    exact ⟨quote (pyStr (.bool b)), hp⟩
  | null =>
    rw [show encodeParam (k, .null) = [k ++ "=" ++ quote (pyStr .null)] from rfl,
      List.mem_singleton] at hp
    exact ⟨quote (pyStr .null), hp⟩

/-- In a well-formed `params` dict (no other entry under key `K`, keys
free of `=`), exactly the pairs of the `K` entry survive a filter for
the `K=` prefix. -/
theorem filter_buildUrlParams_key (l1 l2 : List (String × JValue)) (K : String) (v : JValue)
    (hK : '=' ∉ K.data)
    (hmem : ∀ kv ∈ l1 ++ l2, kv.1 ≠ K ∧ '=' ∉ (kv.1).data) :
    (buildUrlParams (l1 ++ (K, v) :: l2)).filter (fun p => strStartsWith p (K ++ "=")) =
      encodeParam (K, v) := by
  unfold buildUrlParams
  rw [List.flatMap_append, List.flatMap_cons, List.filter_append, List.filter_append]
  have hside : ∀ l : List (String × JValue), (∀ kv ∈ l, kv.1 ≠ K ∧ '=' ∉ (kv.1).data) →
      (l.flatMap encodeParam).filter (fun p => strStartsWith p (K ++ "=")) = [] := by
    intro l hl
    rw [List.filter_eq_nil_iff]
    intro p hp
    rw [List.mem_flatMap] at hp
    obtain ⟨kv, hkv, hpkv⟩ := hp
    obtain ⟨q, hq⟩ := encodeParam_pairs kv.1 kv.2 p (by
      cases kv
      exact hpkv)
    rw [hq, pair_not_starts kv.1 K q (hl kv hkv).2 hK (hl kv hkv).1]
    simp
  have hkeep : (encodeParam (K, v)).filter (fun p => strStartsWith p (K ++ "=")) =
      encodeParam (K, v) := by
    rw [List.filter_eq_self]
    intro p hp
    obtain ⟨q, hq⟩ := encodeParam_pairs K v p hp
    rw [hq, show K ++ "=" ++ q = (K ++ "=") ++ q from by simp, strStartsWith_append]
  rw [hside l1 (fun kv h => hmem kv (by simp [h])),
    hside l2 (fun kv h => hmem kv (by simp [h])), hkeep]
  simp

/-- The standard-parameter branch: any value that is not a list under
`columns` and not a dict under `query` is encoded as a single
percent-encoded `key=str(value)` pair. -/
theorem encodeParam_standard (k : String) (v : JValue)
    (hcol : ¬ (k = "columns" ∧ v.isArrB = true)) (hq : ¬ (k = "query" ∧ v.isObjB = true)) :
    encodeParam (k, v) = [k ++ "=" ++ quote (pyStr v)] := by
  cases v with
  | arr vs =>
    rw [encodeParam, if_neg (fun hk => hcol ⟨hk, rfl⟩)]
  | obj d =>
    rw [encodeParam, if_neg (fun hk => hq ⟨hk, rfl⟩)]
  | str s => rfl
  | int n => rfl
  | bool b => rfl
  | null => rfl

/-! ### Claim theorems -/

theorem nodup_key_ne (l1 l2 : List (String × JValue)) (K : String) (v : JValue)
    (hnod : ((l1 ++ (K, v) :: l2).map Prod.fst).Nodup) :
    ∀ kv ∈ l1 ++ l2, kv.1 ≠ K := by
  rw [List.map_append, List.map_cons] at hnod
  rw [List.nodup_append] at hnod
  obtain ⟨_, h2, hdisj⟩ := hnod
  have hK2 : K ∉ l2.map Prod.fst := (List.nodup_cons.mp h2).1
  have hK1 : K ∉ l1.map Prod.fst := fun hm => hdisj hm (List.mem_cons_self _ _)
  intro kv hkv hk
  rw [List.mem_append] at hkv
  rcases hkv with h | h
  · exact hK1 (hk ▸ List.mem_map_of_mem Prod.fst h)
  · exact hK2 (hk ▸ List.mem_map_of_mem Prod.fst h)

/-- C10: the special encoding rules apply only to a list value under the
key `columns` and a dict value under the key `query`; any other value
under those keys is encoded as an ordinary single percent-encoded
`key=str(value)` pair, like every other parameter. -/
theorem C10_reserved_keys (k : String) (v : JValue)
    (hcol : ¬ (k = "columns" ∧ v.isArrB = true)) (hq : ¬ (k = "query" ∧ v.isObjB = true)) :
    encodeParam (k, v) = [k ++ "=" ++ quote (pyStr v)] ∧
    buildUrlParams [(k, v)] = [k ++ "=" ++ quote (pyStr v)] := by
  have h := encodeParam_standard k v hcol hq
  exact ⟨h, by simp [buildUrlParams, h]⟩

theorem C10_reserved_keys_witness :
    (encodeParam ("columns", JValue.str "state") =
      ["columns=" ++ quote (pyStr (JValue.str "state"))]) ∧
    (encodeParam ("query", JValue.str "raw") =
      ["query=" ++ quote (pyStr (JValue.str "raw"))]) := by
  exact ⟨(C10_reserved_keys "columns" (JValue.str "state") (by decide) (by decide)).1,
    (C10_reserved_keys "query" (JValue.str "raw") (by decide) (by decide)).1⟩

/-- C6: for every params dict (well-formed: unique keys, keys free of
`=`) whose key `columns` holds a list, the constructed query parameters
contain one repeated `columns=`-pair per element, each element
percent-encoded — the pairs with the `columns=` prefix are exactly
those — and never a single comma-joined pair (no emitted `columns=`
pair contains a comma). -/
theorem C6_columns_encoding (l1 l2 : List (String × JValue)) (vs : JArr)
    (hnod : ((l1 ++ ("columns", JValue.arr vs) :: l2).map Prod.fst).Nodup)
    (heqf : ∀ kv ∈ l1 ++ ("columns", JValue.arr vs) :: l2, '=' ∉ (kv.1).data) :
    ((buildUrlParams (l1 ++ ("columns", JValue.arr vs) :: l2)).filter
        (fun p => strStartsWith p "columns=") =
      vs.toList.map (fun col => "columns=" ++ quote (pyStr col))) ∧
    (∀ col ∈ vs.toList, ("columns=" ++ quote (pyStr col)) ∈
      buildUrlParams (l1 ++ ("columns", JValue.arr vs) :: l2)) ∧
    (∀ col ∈ vs.toList, ',' ∉ ("columns=" ++ quote (pyStr col)).data) := by
  have hmem : ∀ kv ∈ l1 ++ l2, kv.1 ≠ "columns" ∧ '=' ∉ (kv.1).data := by
    intro kv hkv
    refine ⟨nodup_key_ne l1 l2 "columns" (JValue.arr vs) hnod kv hkv, heqf kv ?_⟩
    rw [List.mem_append] at hkv ⊢
    rcases hkv with h | h
    · exact Or.inl h
    · exact Or.inr (List.mem_cons_of_mem _ h)
  have hf := filter_buildUrlParams_key l1 l2 "columns" (JValue.arr vs) (by decide) hmem
  rw [show ("columns" ++ "=" : String) = "columns=" from by decide] at hf
  rw [encodeParam, if_pos rfl] at hf
  refine ⟨hf, ?_, ?_⟩
  · intro col hcol
    have hin : ("columns=" ++ quote (pyStr col)) ∈
        (buildUrlParams (l1 ++ ("columns", JValue.arr vs) :: l2)).filter
          (fun p => strStartsWith p "columns=") := by
      rw [hf]
      exact List.mem_map_of_mem _ hcol
    exact List.mem_of_mem_filter hin
  · intro col _ hcm
    rw [String.data_append, List.mem_append] at hcm
    rcases hcm with h | h
    · exact absurd h (by decide)
    · exact quote_no_comma _ h

theorem C6_columns_encoding_witness :
    (buildUrlParams [("effective_attributes", JValue.str "true"),
        ("columns", JValue.arr (.cons (.str "state") (.cons (.str "plugin_output") .nil)))]).filter
      (fun p => strStartsWith p "columns=") =
      ["columns=" ++ quote (pyStr (JValue.str "state")),
        "columns=" ++ quote (pyStr (JValue.str "plugin_output"))] := by
  have h := (C6_columns_encoding [("effective_attributes", JValue.str "true")] []
    (JArr.cons (.str "state") (.cons (.str "plugin_output") .nil)) (by decide) (by decide)).1
  exact h

/-- C7: for every params dict (well-formed: unique keys, keys free of
`=`) whose key `query` holds a dict, the constructed query parameters
contain exactly one pair with the `query=` prefix, namely the
percent-encoded JSON serialisation of the dict, and percent-decoding
followed by JSON-parsing recovers the original dict (round-trip). -/
theorem C7_query_roundtrip (l1 l2 : List (String × JValue)) (d : JObj)
    (hnod : ((l1 ++ ("query", JValue.obj d) :: l2).map Prod.fst).Nodup)
    (heqf : ∀ kv ∈ l1 ++ ("query", JValue.obj d) :: l2, '=' ∉ (kv.1).data) :
    ((buildUrlParams (l1 ++ ("query", JValue.obj d) :: l2)).filter
        (fun p => strStartsWith p "query=") = ["query=" ++ quote (dumps (JValue.obj d))]) ∧
    (unquote (quote (dumps (JValue.obj d)))).bind jparse = some (JValue.obj d) := by
  have hmem : ∀ kv ∈ l1 ++ l2, kv.1 ≠ "query" ∧ '=' ∉ (kv.1).data := by
    intro kv hkv
    refine ⟨nodup_key_ne l1 l2 "query" (JValue.obj d) hnod kv hkv, heqf kv ?_⟩
    rw [List.mem_append] at hkv ⊢
    rcases hkv with h | h
    · exact Or.inl h
    · exact Or.inr (List.mem_cons_of_mem _ h)
  have hf := filter_buildUrlParams_key l1 l2 "query" (JValue.obj d) (by decide) hmem
  rw [show ("query" ++ "=" : String) = "query=" from by decide] at hf
  rw [encodeParam, if_pos rfl] at hf
  refine ⟨hf, ?_⟩
  rw [unquote_quote, Option.some_bind, jparse_dumps]

theorem C7_query_roundtrip_witness :
    ((buildUrlParams [("query", JValue.obj (.cons "op" (.str "=")
        (.cons "left" (.str "state") .nil)))]).filter (fun p => strStartsWith p "query=") =
      ["query=" ++ quote (dumps (JValue.obj (.cons "op" (.str "=")
        (.cons "left" (.str "state") .nil))))]) ∧
    (unquote (quote (dumps (JValue.obj (.cons "op" (.str "=")
        (.cons "left" (.str "state") .nil)))))).bind jparse =
      some (JValue.obj (.cons "op" (.str "=") (.cons "left" (.str "state") .nil))) := by
  exact C7_query_roundtrip [] [] (.cons "op" (.str "=") (.cons "left" (.str "state") .nil))
    (by decide) (by decide)

/-- C3: a transport-level timeout (`TimeoutError`) on any attempt `n`,
for any `maxRetries`, is never retried: the call terminates immediately
with `CheckMKConnectionError`, having issued exactly one wire request
and slept never. -/
theorem C3_timeout_never_retried (cfg : CheckMKConfig) (api_base_url : String)
    (responses : Nat → String → HttpOutcome) (endpoint method : String)
    (data : Option JValue) (params : Option (List (String × JValue)))
    (custom_headers : Option (List (String × String))) (n : Nat)
    ( use_api_prefix : Bool) (m : String)
    (hres : responses n (buildUrl api_base_url cfg.server_url endpoint use_api_prefix params) =
      .exc (.timeoutError m)) :
    request cfg api_base_url responses endpoint method data params custom_headers n
      use_api_prefix = .error (.connectionError ("Request timeout: " ++ m)) ∧
    requestWireCount cfg api_base_url responses endpoint method data params custom_headers n
      use_api_prefix = 1 ∧
    requestSleeps cfg api_base_url responses endpoint method data params custom_headers n
      use_api_prefix = [] := by
  have h := requestT_timeout cfg api_base_url responses endpoint method data params
    custom_headers n use_api_prefix m hres
  unfold request requestWireCount requestSleeps
  rw [h]
  exact ⟨rfl, rfl, rfl⟩

theorem C3_timeout_never_retried_witness :
    request ⟨"http://mon:8080", "prod", "user", "pw", true, 30, 5, false⟩
        "http://mon:8080/cmk/check_mk/api/1.0" (fun _ _ => .exc (.timeoutError "timed out"))
        "version" "GET" none none none 0 true =
      .error (.connectionError ("Request timeout: " ++ "timed out")) ∧
    requestWireCount ⟨"http://mon:8080", "prod", "user", "pw", true, 30, 5, false⟩
        "http://mon:8080/cmk/check_mk/api/1.0" (fun _ _ => .exc (.timeoutError "timed out"))
        "version" "GET" none none none 0 true = 1 ∧
    requestSleeps ⟨"http://mon:8080", "prod", "user", "pw", true, 30, 5, false⟩
        "http://mon:8080/cmk/check_mk/api/1.0" (fun _ _ => .exc (.timeoutError "timed out"))
        "version" "GET" none none none 0 true = [] :=
  C3_timeout_never_retried ⟨"http://mon:8080", "prod", "user", "pw", true, 30, 5, false⟩
    "http://mon:8080/cmk/check_mk/api/1.0" (fun _ _ => .exc (.timeoutError "timed out"))
    "version" "GET" none none none 0 true "timed out" rfl

/-- C5: a terminal HTTP error (non-transient status, or transient with
the retry budget exhausted) is classified by status code alone — 401 to
`CheckMKAuthenticationError`, 403 to `CheckMKPermissionError`, 404 to
`CheckMKNotFoundError`, anything else to the generic `CheckMKAPIError`
— regardless of the request verb (`method` is universally quantified
and never inspected). -/
theorem C5_http_error_taxonomy (cfg : CheckMKConfig) (api_base_url : String)
    (responses : Nat → String → HttpOutcome) (endpoint method : String)
    (data : Option JValue) (params : Option (List (String × JValue)))
    (custom_headers : Option (List (String × String))) (n : Nat)
    ( use_api_prefix : Bool) (code : Nat) (reason : String) (errBody : Option String)
    (hres : responses n (buildUrl api_base_url cfg.server_url endpoint use_api_prefix params) =
      .httpError code reason errBody)
    (hterm : ¬ ((code = 500 ∨ code = 502 ∨ code = 503 ∨ code = 504) ∧
      (n : Int) < cfg.max_retries)) :
    (code = 401 →
      request cfg api_base_url responses endpoint method data params custom_headers n
        use_api_prefix = .error (.authenticationError ("Authentication failed: " ++ reason)
          code (httpErrorData reason errBody))) ∧
    (code = 403 →
      request cfg api_base_url responses endpoint method data params custom_headers n
        use_api_prefix = .error (.permissionError ("Permission denied: " ++ reason)
          code (httpErrorData reason errBody))) ∧
    (code = 404 →
      request cfg api_base_url responses endpoint method data params custom_headers n
        use_api_prefix = .error (.notFoundError ("Resource not found: " ++ reason)
          code (httpErrorData reason errBody))) ∧
    (¬ code = 401 → ¬ code = 403 → ¬ code = 404 →
      request cfg api_base_url responses endpoint method data params custom_headers n
        use_api_prefix = .error (.apiError ("HTTP " ++ natToStr code ++ ": " ++ reason)
          code (httpErrorData reason errBody))) := by
  have h := requestT_httpError_terminal cfg api_base_url responses endpoint method data params
    custom_headers n use_api_prefix code reason errBody hres hterm
  unfold request
  rw [h]
  refine ⟨?_, ?_, ?_, ?_⟩
  · intro hc
    rw [if_pos hc]
  · intro hc
    have h401 : ¬ code = 401 := by omega
    rw [if_neg h401, if_pos hc]
  · intro hc
    have h401 : ¬ code = 401 := by omega
    have h403 : ¬ code = 403 := by omega
    rw [if_neg h401, if_neg h403, if_pos hc]
  · intro h401 h403 h404
    rw [if_neg h401, if_neg h403, if_neg h404]

theorem C5_http_error_taxonomy_witness :
    (request ⟨"http://mon:8080", "prod", "user", "pw", true, 30, 3, false⟩
        "http://mon:8080/cmk/check_mk/api/1.0"
        (fun _ _ => .httpError 401 "Unauthorized" none) "version" "DELETE" none none none 0
        true =
      .error (.authenticationError ("Authentication failed: " ++ "Unauthorized") 401
        (httpErrorData "Unauthorized" none))) ∧
    (request ⟨"http://mon:8080", "prod", "user", "pw", true, 30, 3, false⟩
        "http://mon:8080/cmk/check_mk/api/1.0"
        (fun _ _ => .httpError 404 "Not Found" none) "objects/host/h1" "GET" none none none 0
        true =
      .error (.notFoundError ("Resource not found: " ++ "Not Found") 404
        (httpErrorData "Not Found" none))) ∧
    (request ⟨"http://mon:8080", "prod", "user", "pw", true, 30, 3, false⟩
        "http://mon:8080/cmk/check_mk/api/1.0"
        (fun _ _ => .httpError 418 "Teapot" none) "version" "POST" none none none 0 true =
      .error (.apiError ("HTTP " ++ natToStr 418 ++ ": " ++ "Teapot") 418
        (httpErrorData "Teapot" none))) := by
  refine ⟨?_, ?_, ?_⟩
  · exact (C5_http_error_taxonomy ⟨"http://mon:8080", "prod", "user", "pw", true, 30, 3, false⟩
      "http://mon:8080/cmk/check_mk/api/1.0" (fun _ _ => .httpError 401 "Unauthorized" none)
      "version" "DELETE" none none none 0 true 401 "Unauthorized" none rfl
      (by decide)).1 rfl
  · exact (C5_http_error_taxonomy ⟨"http://mon:8080", "prod", "user", "pw", true, 30, 3, false⟩
      "http://mon:8080/cmk/check_mk/api/1.0" (fun _ _ => .httpError 404 "Not Found" none)
      "objects/host/h1" "GET" none none none 0 true 404 "Not Found" none rfl
      (by decide)).2.2.1 rfl
  · exact (C5_http_error_taxonomy ⟨"http://mon:8080", "prod", "user", "pw", true, 30, 3, false⟩
      "http://mon:8080/cmk/check_mk/api/1.0" (fun _ _ => .httpError 418 "Teapot" none)
      "version" "POST" none none none 0 true 418 "Teapot" none rfl
      (by decide)).2.2.2 (by decide) (by decide) (by decide)

/-- C8: on a response returned by the transport, an empty body yields a
success envelope whose parsed body is the empty dict and whose success
flag is true; a non-empty body that is not valid JSON raises the
generic `CheckMKAPIError` carrying the decode-failure message and the
raw body — never a silent empty success. -/
theorem C8_body_decoding (cfg : CheckMKConfig) (api_base_url : String)
    (responses : Nat → String → HttpOutcome) (endpoint method : String)
    (data : Option JValue) (params : Option (List (String × JValue)))
    (custom_headers : Option (List (String × String))) (n : Nat)
    ( use_api_prefix : Bool) (st : Nat) (body : String) (hdrs : List (String × String))
    (hres : responses n (buildUrl api_base_url cfg.server_url endpoint use_api_prefix params) =
      .response st body hdrs) :
    (body = "" →
      request cfg api_base_url responses endpoint method data params custom_headers n
        use_api_prefix = .ok ⟨st, .obj .nil, true, "", hdrs⟩) ∧
    (body ≠ "" → jparse body = none →
      request cfg api_base_url responses endpoint method data params custom_headers n
        use_api_prefix = .error (.apiError "Invalid JSON response" st
          (.obj (.cons "raw" (.str body) .nil)))) := by
  have h := requestT_response cfg api_base_url responses endpoint method data params
    custom_headers n use_api_prefix st body hdrs hres
  unfold request
  rw [h]
  constructor
  · intro hb
    subst hb
    rw [parseBody, if_pos rfl]
  · intro hb hj
    rw [parseBody, if_neg hb, hj]

theorem C8_body_decoding_witness :
    (request ⟨"http://mon:8080", "prod", "user", "pw", true, 30, 3, false⟩
        "http://mon:8080/cmk/check_mk/api/1.0" (fun _ _ => .response 204 "" [])
        "version" "GET" none none none 0 true =
      .ok ⟨204, .obj .nil, true, "", []⟩) ∧
    (request ⟨"http://mon:8080", "prod", "user", "pw", true, 30, 3, false⟩
        "http://mon:8080/cmk/check_mk/api/1.0"
        (fun _ _ => .response 200 "not json" [("ETag", "abc")])
        "version" "GET" none none none 0 true =
      .error (.apiError "Invalid JSON response" 200
        (.obj (.cons "raw" (.str "not json") .nil)))) := by
  refine ⟨?_, ?_⟩
  · exact (C8_body_decoding ⟨"http://mon:8080", "prod", "user", "pw", true, 30, 3, false⟩
      "http://mon:8080/cmk/check_mk/api/1.0" (fun _ _ => .response 204 "" [])
      "version" "GET" none none none 0 true 204 "" [] rfl).1 rfl
  · exact (C8_body_decoding ⟨"http://mon:8080", "prod", "user", "pw", true, 30, 3, false⟩
      "http://mon:8080/cmk/check_mk/api/1.0"
      (fun _ _ => .response 200 "not json" [("ETag", "abc")])
      "version" "GET" none none none 0 true 200 "not json" [("ETag", "abc")] rfl).2
      (by decide) (by decide)

/-- C2: with `maxRetries = N`, a run of `N` consecutive HTTP 503
responses followed by one HTTP 200 makes the client issue exactly `N+1`
wire requests and return a success envelope; a run of `N+1` (indeed,
arbitrarily many) consecutive 503 responses makes it issue exactly
`N+1` wire requests and raise the generic `CheckMKAPIError`. -/
theorem C2_retry_budget (N : Nat) (cfg : CheckMKConfig) (api_base_url : String)
    (endpoint method : String) (data : Option JValue)
    (params : Option (List (String × JValue)))
    (custom_headers : Option (List (String × String))) ( use_api_prefix : Bool)
    (resp1 resp2 : Nat → String → HttpOutcome) (hmr : cfg.max_retries = N)
    (h1 : ∀ i u, resp1 i u =
      if i < N then .httpError 503 "Service Unavailable" none else .response 200 "" [])
    (h2 : ∀ i u, resp2 i u = .httpError 503 "Service Unavailable" none) :
    (request cfg api_base_url resp1 endpoint method data params custom_headers 0
        use_api_prefix = .ok ⟨200, .obj .nil, true, "", []⟩ ∧
      requestWireCount cfg api_base_url resp1 endpoint method data params custom_headers 0
        use_api_prefix = N + 1) ∧
    (request cfg api_base_url resp2 endpoint method data params custom_headers 0
        use_api_prefix = .error (.apiError "HTTP 503: Service Unavailable" 503
          (.obj (.cons "error" (.str "Service Unavailable") .nil))) ∧
      requestWireCount cfg api_base_url resp2 endpoint method data params custom_headers 0
        use_api_prefix = N + 1) := by
  have ha := req503_then_200 cfg api_base_url resp1 endpoint method data params custom_headers
    use_api_prefix N hmr h1 N 0 (by omega)
  have hb := req503_forever cfg api_base_url resp2 endpoint method data params custom_headers
    use_api_prefix N hmr h2 N 0 (by omega)
  unfold request requestWireCount
  rw [ha, hb]
  exact ⟨⟨rfl, rfl⟩, rfl, rfl⟩

theorem C2_retry_budget_witness :
    (request ⟨"http://mon:8080", "prod", "user", "pw", true, 30, 2, false⟩
        "http://mon:8080/cmk/check_mk/api/1.0"
        (fun i _ => if i < 2 then .httpError 503 "Service Unavailable" none
          else .response 200 "" []) "version" "GET" none none none 0 true =
      .ok ⟨200, .obj .nil, true, "", []⟩) ∧
    (requestWireCount ⟨"http://mon:8080", "prod", "user", "pw", true, 30, 2, false⟩
        "http://mon:8080/cmk/check_mk/api/1.0"
        (fun i _ => if i < 2 then .httpError 503 "Service Unavailable" none
          else .response 200 "" []) "version" "GET" none none none 0 true = 3) ∧
    (request ⟨"http://mon:8080", "prod", "user", "pw", true, 30, 2, false⟩
        "http://mon:8080/cmk/check_mk/api/1.0"
        (fun _ _ => .httpError 503 "Service Unavailable" none) "version" "GET" none none none
        0 true =
      .error (.apiError "HTTP 503: Service Unavailable" 503
        (.obj (.cons "error" (.str "Service Unavailable") .nil)))) ∧
    (requestWireCount ⟨"http://mon:8080", "prod", "user", "pw", true, 30, 2, false⟩
        "http://mon:8080/cmk/check_mk/api/1.0"
        (fun _ _ => .httpError 503 "Service Unavailable" none) "version" "GET" none none none
        0 true = 3) := by
  have h := C2_retry_budget 2 ⟨"http://mon:8080", "prod", "user", "pw", true, 30, 2, false⟩
    "http://mon:8080/cmk/check_mk/api/1.0" "version" "GET" none none none true
    (fun i _ => if i < 2 then .httpError 503 "Service Unavailable" none
      else .response 200 "" [])
    (fun _ _ => .httpError 503 "Service Unavailable" none)
    rfl (fun i u => rfl) (fun i u => rfl)
  exact ⟨h.1.1, h.1.2, h.2.1, h.2.2⟩

/-- C4 counterexample to the claim as stated: with `maxRetries = 3` and
every attempt failing with `urllib.error.URLError("Connection
refused")` — a non-timeout transport-level error — the call is NOT
retried: it terminates after exactly one wire request (no back-off
sleep) with `CheckMKConnectionError`, although `0 < maxRetries`. -/
theorem C4_counterexample :
    request ⟨"http://mon:8080", "prod", "user", "pw", true, 30, 3, false⟩
        "http://mon:8080/cmk/check_mk/api/1.0"
        (fun _ _ => .exc (.urlError "Connection refused")) "version" "GET" none none none 0
        true =
      .error (.connectionError ("Connection error: " ++ "Connection refused")) ∧
    requestWireCount ⟨"http://mon:8080", "prod", "user", "pw", true, 30, 3, false⟩
        "http://mon:8080/cmk/check_mk/api/1.0"
        (fun _ _ => .exc (.urlError "Connection refused")) "version" "GET" none none none 0
        true = 1 ∧
    requestSleeps ⟨"http://mon:8080", "prod", "user", "pw", true, 30, 3, false⟩
        "http://mon:8080/cmk/check_mk/api/1.0"
        (fun _ _ => .exc (.urlError "Connection refused")) "version" "GET" none none none 0
        true = [] ∧
    (⟨"http://mon:8080", "prod", "user", "pw", true, 30, 3, false⟩ :
      CheckMKConfig).max_retries = 3 := by
  have h := requestT_urlError ⟨"http://mon:8080", "prod", "user", "pw", true, 30, 3, false⟩
    "http://mon:8080/cmk/check_mk/api/1.0"
    (fun _ _ => .exc (.urlError "Connection refused")) "version" "GET" none none none 0 true
    "Connection refused" (by decide) rfl
  unfold request requestWireCount requestSleeps
  rw [h]
  exact ⟨rfl, rfl, rfl, rfl⟩

/-- C4 (amended): a `urllib.error.URLError`-class transport failure
(DNS failure, connection refused) is never retried — it immediately
terminates the call with `CheckMKConnectionError` after one wire
request; only a generic transport exception that is neither a timeout
nor a `URLError` nor a `StopIteration` is retried with exponential
back-off (sleeping `2^n` after attempt `n`) while `n < maxRetries`, and
terminates with `CheckMKConnectionError` once retries are exhausted. -/
theorem C4_transport_error_handling (cfg : CheckMKConfig) (api_base_url : String)
    (endpoint method : String) (data : Option JValue)
    (params : Option (List (String × JValue)))
    (custom_headers : Option (List (String × String))) ( use_api_prefix : Bool) :
    (∀ (responses : Nat → String → HttpOutcome) (n : Nat) (m : String),
      containsTimeout m = false →
      responses n (buildUrl api_base_url cfg.server_url endpoint use_api_prefix params) =
        .exc (.urlError m) →
      request cfg api_base_url responses endpoint method data params custom_headers n
        use_api_prefix = .error (.connectionError ("Connection error: " ++ m)) ∧
      requestWireCount cfg api_base_url responses endpoint method data params custom_headers n
        use_api_prefix = 1 ∧
      requestSleeps cfg api_base_url responses endpoint method data params custom_headers n
        use_api_prefix = []) ∧
    (∀ (responses : Nat → String → HttpOutcome) (N : Nat) (m : String),
      cfg.max_retries = N → (∀ i u, responses i u = .exc (.otherExc m)) →
      request cfg api_base_url responses endpoint method data params custom_headers 0
        use_api_prefix = .error (.connectionError ("Connection failed: " ++ m)) ∧
      requestWireCount cfg api_base_url responses endpoint method data params custom_headers 0
        use_api_prefix = N + 1 ∧
      requestSleeps cfg api_base_url responses endpoint method data params custom_headers 0
        use_api_prefix = (List.range N).map (fun j => 2 ^ j)) := by
  constructor
  · intro responses n m hct hres
    have h := requestT_urlError cfg api_base_url responses endpoint method data params
      custom_headers n use_api_prefix m hct hres
    unfold request requestWireCount requestSleeps
    rw [h]
    exact ⟨rfl, rfl, rfl⟩
  · intro responses N m hmr h1
    have h := reqOtherExc cfg api_base_url responses endpoint method data params
      custom_headers use_api_prefix N m hmr h1 N 0 (by omega)
    unfold request requestWireCount requestSleeps
    rw [h]
    refine ⟨rfl, rfl, ?_⟩
    dsimp only
    congr 1
    funext j
    rw [Nat.zero_add]

theorem C4_transport_error_handling_witness :
    (request ⟨"http://mon:8080", "prod", "user", "pw", true, 30, 3, false⟩
        "http://mon:8080/cmk/check_mk/api/1.0" (fun _ _ => .exc (.urlError "getaddrinfo failed"))
        "version" "GET" none none none 0 true =
      .error (.connectionError ("Connection error: " ++ "getaddrinfo failed"))) ∧
    (request ⟨"http://mon:8080", "prod", "user", "pw", true, 30, 2, false⟩
        "http://mon:8080/cmk/check_mk/api/1.0" (fun _ _ => .exc (.otherExc "broken pipe"))
        "version" "GET" none none none 0 true =
      .error (.connectionError ("Connection failed: " ++ "broken pipe"))) ∧
    (requestWireCount ⟨"http://mon:8080", "prod", "user", "pw", true, 30, 2, false⟩
        "http://mon:8080/cmk/check_mk/api/1.0" (fun _ _ => .exc (.otherExc "broken pipe"))
        "version" "GET" none none none 0 true = 3) ∧
    (requestSleeps ⟨"http://mon:8080", "prod", "user", "pw", true, 30, 2, false⟩
        "http://mon:8080/cmk/check_mk/api/1.0" (fun _ _ => .exc (.otherExc "broken pipe"))
        "version" "GET" none none none 0 true = (List.range 2).map (fun j => 2 ^ j)) := by
  have ha := (C4_transport_error_handling
    ⟨"http://mon:8080", "prod", "user", "pw", true, 30, 3, false⟩
    "http://mon:8080/cmk/check_mk/api/1.0" "version" "GET" none none none true).1
    (fun _ _ => .exc (.urlError "getaddrinfo failed")) 0 "getaddrinfo failed" (by decide) rfl
  have hb := (C4_transport_error_handling
    ⟨"http://mon:8080", "prod", "user", "pw", true, 30, 2, false⟩
    "http://mon:8080/cmk/check_mk/api/1.0" "version" "GET" none none none true).2
    (fun _ _ => .exc (.otherExc "broken pipe")) 2 "broken pipe" rfl (fun i u => rfl)
  exact ⟨ha.1, hb.1, hb.2.1, hb.2.2⟩

/-- C1 counterexample to the claim as stated: with every probe failing
(here, each `GET \x7bcandidate\x7d/version` raising an exception), the
retained probe trace has 11 entries — two per probed candidate plus one
`FALLBACK:` entry — while the candidate list has 5 entries, so the
trace length does not equal the candidate count. -/
theorem C1_counterexample :
    (test_patterns ⟨"http://mon:8080", "prod", "user", "pw", true, 30, 3, false⟩).length = 5 ∧
    (detect_api_url ⟨"http://mon:8080", "prod", "user", "pw", true, 30, 3, false⟩
        (fun _ => ProbeOutcome.exc "no route to host")).2.length = 11 ∧
    ¬ ((detect_api_url ⟨"http://mon:8080", "prod", "user", "pw", true, 30, 3, false⟩
          (fun _ => ProbeOutcome.exc "no route to host")).2.length =
        (test_patterns ⟨"http://mon:8080", "prod", "user", "pw", true, 30, 3, false⟩).length) := by
  decide

/-- C1 (amended): endpoint detection probes the fixed ordered candidate
list and selects the first candidate whose `GET \x7bcandidate\x7d/version`
returns HTTP 200; if no candidate succeeds it never raises and falls
back to the first candidate of the list, and in that case the retained
probe trace has `2 * candidateCount + 1` entries (two per probed
candidate plus one fallback entry), not `candidateCount`. -/
theorem C1_endpoint_detection (cfg : CheckMKConfig) (probe : String → ProbeOutcome) :
    ((∀ p ∈ test_patterns cfg, probe p ≠ .status 200) →
      (detect_api_url cfg probe).1 = cfg.server_url ++ "/cmk/check_mk/api/1.0" ∧
      (test_patterns cfg).head? = some ((detect_api_url cfg probe).1) ∧
      (detect_api_url cfg probe).2.length = 2 * (test_patterns cfg).length + 1) ∧
    (∀ l1 p l2, test_patterns cfg = l1 ++ p :: l2 →
      (∀ q ∈ l1, probe q ≠ .status 200) → probe p = .status 200 →
      (detect_api_url cfg probe).1 = p) := by
  constructor
  · intro h
    obtain ⟨tr, htr, hlen⟩ := detectLoop_fail probe (test_patterns cfg) [] h
    unfold detect_api_url
    rw [htr]
    dsimp only
    refine ⟨rfl, rfl, ?_⟩
    simp only [List.length_append, List.length_singleton, hlen, List.length_nil]
    omega
  · intro l1 p l2 heq h1 hp
    obtain ⟨tr, htr⟩ := detectLoop_first probe l1 p l2 [] h1 hp
    unfold detect_api_url
    rw [heq, htr]

theorem C1_endpoint_detection_witness :
    ((detect_api_url ⟨"http://mon:8080", "prod", "user", "pw", true, 30, 3, false⟩
        (fun _ => ProbeOutcome.exc "timed out")).2.length =
      2 * (test_patterns ⟨"http://mon:8080", "prod", "user", "pw", true, 30, 3, false⟩).length
        + 1) ∧
    (detect_api_url ⟨"http://mon:8080", "prod", "user", "pw", true, 30, 3, false⟩
        (fun u => if u = "http://mon:8080/prod/check_mk/api/1.0" then ProbeOutcome.status 200
          else ProbeOutcome.httpError 404 "Not Found")).1 =
      "http://mon:8080/prod/check_mk/api/1.0" := by
  constructor
  · exact ((C1_endpoint_detection
      ⟨"http://mon:8080", "prod", "user", "pw", true, 30, 3, false⟩
      (fun _ => ProbeOutcome.exc "timed out")).1 (by decide)).2.2
  · exact (C1_endpoint_detection
      ⟨"http://mon:8080", "prod", "user", "pw", true, 30, 3, false⟩
      (fun u => if u = "http://mon:8080/prod/check_mk/api/1.0" then ProbeOutcome.status 200
        else ProbeOutcome.httpError 404 "Not Found")).2
      ["http://mon:8080/cmk/check_mk/api/1.0"] "http://mon:8080/prod/check_mk/api/1.0"
      ["http://mon:8080/check_mk/api/1.0", "http://mon:8080/api/1.0",
        "http://mon:8080/prod/cmk/check_mk/api/1.0"] (by decide) (by decide) (by decide)

theorem head_dropWhile_false (p : Char → Bool) :
    ∀ (l : List Char) (x : Char), (l.dropWhile p).head? = some x → p x = false := by
  intro l
  induction l with
  | nil => intro x h; exact absurd h (by simp)
  | cons a t ih =>
    intro x h
    rw [List.dropWhile_cons] at h
    by_cases hp : p a = true
    · rw [if_pos hp] at h
      exact ih x h
    · rw [if_neg hp] at h
      simp only [List.head?_cons, Option.some.injEq] at h
      rw [← h]
      exact Bool.not_eq_true _ ▸ (by revert hp; cases p a <;> simp)

/-- `url.rstrip("/")` never ends with a slash. -/
theorem rstripSlash_no_slash (s : String) : strEndsWith (rstripSlash s) "/" = false := by
  unfold strEndsWith rstripSlash
  cases hd : s.data.reverse.dropWhile (fun c => c = '/') with
  | nil => rfl
  | cons x t =>
    have hx : ¬ x = '/' := by
      have hh := head_dropWhile_false (fun c => c = '/') s.data.reverse x (by rw [hd]; rfl)
      simpa using hh
    show List.isSuffixOf ['/'] ((x :: t).reverse) = false
    rw [List.isSuffixOf, List.reverse_reverse]
    show (('/' == x) && List.isPrefixOf [] t) = false
    simp only [List.isPrefixOf, Bool.and_true, beq_eq_false_iff_ne, ne_eq]
    intro hc
    exact hx hc.symm

/-- Stripping trailing slashes from a string that starts with `S` either
keeps the prefix `S` or collapses the string to `S` minus its own
trailing slashes. -/
theorem rstripSlash_scheme (S u1 : String) (t : List Char) (h : u1.data = S.data ++ t) :
    strStartsWith (rstripSlash u1) S = true ∨
      (rstripSlash u1).data = (S.data.reverse.dropWhile (fun c => c = '/')).reverse := by
  unfold strStartsWith rstripSlash
  rw [h, List.reverse_append, List.dropWhile_append]
  by_cases he : (t.reverse.dropWhile (fun c => c = '/')).isEmpty = true
  · rw [if_pos he]
    right
    rfl
  · rw [if_neg he]
    left
    show S.data.isPrefixOf
      ((t.reverse.dropWhile (fun c => c = '/') ++ S.data.reverse).reverse) = true
    rw [List.reverse_append, List.reverse_reverse]
    exact List.isPrefixOf_iff_prefix.mpr (List.prefix_append _ _)

/-- What `_normalize_url` guarantees on a non-empty URL: no trailing
slash, and either an explicit scheme prefix or the bare scheme left
over from a scheme-only URL. -/
theorem normalizeUrl_props (url : String) (h : ¬ url = "") :
    strEndsWith (normalizeUrl url) "/" = false ∧
      ((strStartsWith (normalizeUrl url) "http://" ||
          strStartsWith (normalizeUrl url) "https://") = true ∨
        normalizeUrl url = "http:" ∨ normalizeUrl url = "https:") := by
  unfold normalizeUrl
  rw [if_neg h]
  dsimp only
  set u1 := if strStartsWith url "http://" || strStartsWith url "https://" then url
    else "http://" ++ url with hu1
  have hpre : (∃ t, u1.data = "http://".data ++ t) ∨ (∃ t, u1.data = "https://".data ++ t) := by
    by_cases hs : (strStartsWith url "http://" || strStartsWith url "https://") = true
    · rw [hu1, if_pos hs]
      rcases Bool.or_eq_true_iff.mp hs with h1 | h1
      · left
        obtain ⟨t, ht⟩ := List.isPrefixOf_iff_prefix.mp h1
        exact ⟨t, ht.symm⟩
      · right
        obtain ⟨t, ht⟩ := List.isPrefixOf_iff_prefix.mp h1
        exact ⟨t, ht.symm⟩
    · rw [hu1, if_neg hs]
      exact Or.inl ⟨url.data, String.data_append _ _⟩
  have hlen : 1 < u1.length := by
    rcases hpre with ⟨t, ht⟩ | ⟨t, ht⟩ <;>
      · show 1 < u1.data.length
        rw [ht, List.length_append]
        simp
        omega
  by_cases he : strEndsWith u1 "/" = true
  · rw [if_pos ⟨he, hlen⟩]
    refine ⟨rstripSlash_no_slash u1, ?_⟩
    rcases hpre with ⟨t, ht⟩ | ⟨t, ht⟩
    · rcases rstripSlash_scheme "http://" u1 t ht with hc | hc
      · exact Or.inl (by rw [hc]; rfl)
      · refine Or.inr (Or.inl ?_)
        have hq : (rstripSlash u1).data = "http:".data := by
          rw [hc]; decide
        exact String.ext hq
    · rcases rstripSlash_scheme "https://" u1 t ht with hc | hc
      · exact Or.inl (by rw [hc, Bool.or_true])
      · refine Or.inr (Or.inr ?_)
        have hq : (rstripSlash u1).data = "https:".data := by
          rw [hc]; decide
        exact String.ext hq
  · rw [if_neg (by intro hc; exact he hc.1)]
    have he' : strEndsWith u1 "/" = false := by
      revert he; cases strEndsWith u1 "/" <;> simp
    refine ⟨he', Or.inl ?_⟩
    rcases hpre with ⟨t, ht⟩ | ⟨t, ht⟩
    · have hb : strStartsWith u1 "http://" = true := by
        unfold strStartsWith
        rw [ht]
        exact List.isPrefixOf_iff_prefix.mpr (List.prefix_append _ _)
      rw [hb]
      rfl
    · have hb : strStartsWith u1 "https://" = true := by
        unfold strStartsWith
        rw [ht]
        exact List.isPrefixOf_iff_prefix.mpr (List.prefix_append _ _)
      rw [hb, Bool.or_true]

/-- C9 counterexample to the claim as stated: the configuration with
`server_url = "http://"` is accepted (the URL is non-empty), but the
stored server URL is normalised to `"http:"` — its trailing slashes are
stripped — which starts with neither `http://` nor `https://`. -/
theorem C9_counterexample :
    postInit ⟨"http://", "prod", "user", "pw", true, 30, 3, false⟩ =
      .ok ⟨"http:", "prod", "user", "pw", true, 30, 3, false⟩ ∧
    strStartsWith "http:" "http://" = false ∧
    strStartsWith "http:" "https://" = false := by
  refine ⟨rfl, rfl, rfl⟩

/-- C9 (amended): every configuration that construction accepts has
non-empty required fields, a positive timeout, a non-negative retry
budget, and a stored server URL with no trailing slash that either
starts with an explicit `http://` or `https://` scheme or is the bare
scheme `"http:"`/`"https:"` left by stripping a scheme-only URL;
construction fails whenever server URL, site, username or password is
missing or the timeout is not positive. -/
theorem C9_config_invariants (c : CheckMKConfig) :
    (∀ c2, postInit c = .ok c2 →
      ¬ c2.server_url = "" ∧ ¬ c2.site = "" ∧ ¬ c2.username = "" ∧ ¬ c2.password = "" ∧
      0 < c2.timeout ∧ 0 ≤ c2.max_retries ∧
      strEndsWith c2.server_url "/" = false ∧
      ((strStartsWith c2.server_url "http://" ||
          strStartsWith c2.server_url "https://") = true ∨
        c2.server_url = "http:" ∨ c2.server_url = "https:")) ∧
    ((c.server_url = "" ∨ c.site = "" ∨ c.username = "" ∨ c.password = "" ∨ c.timeout ≤ 0) →
      ∃ e, postInit c = .error e) := by
  constructor
  · intro c2 hok
    unfold postInit at hok
    split_ifs at hok with h1 h2 h3 h4 h5 h6
    rw [Except.ok.injEq] at hok
    subst hok
    obtain ⟨hns, hsch⟩ := normalizeUrl_props c.server_url h1
    refine ⟨?_, h4, h2, h3, by show 0 < c.timeout; omega, by show 0 ≤ c.max_retries; omega,
      hns, hsch⟩
    intro hemp
    have hemp2 : normalizeUrl c.server_url = "" := hemp
    rw [hemp2] at hsch
    rcases hsch with hb | hb | hb
    · exact absurd hb (by decide)
    · exact absurd hb (by decide)
    · exact absurd hb (by decide)
  · intro hbad
    unfold postInit
    split_ifs with h1 h2 h3 h4 h5 h6
    · exact ⟨_, rfl⟩
    · exact ⟨_, rfl⟩
    · exact ⟨_, rfl⟩
    · exact ⟨_, rfl⟩
    · exact ⟨_, rfl⟩
    · exact ⟨_, rfl⟩
    rcases hbad with hb | hb | hb | hb | hb
    · exact absurd hb h1
    · exact absurd hb h4
    · exact absurd hb h2
    · exact absurd hb h3
    · exact absurd hb h5

theorem C9_config_invariants_witness :
    strEndsWith "http://mon.example.com" "/" = false ∧
    (strStartsWith "http://mon.example.com" "http://" ||
      strStartsWith "http://mon.example.com" "https://") = true ∧
    ∃ e, postInit ⟨"mon.example.com", "prod", "user", "pw", true, 0, 3, false⟩ = .error e := by
  have ha := (C9_config_invariants
    ⟨"mon.example.com/", "prod", "user", "pw", true, 30, 3, false⟩).1
    ⟨"http://mon.example.com", "prod", "user", "pw", true, 30, 3, false⟩ rfl
  have hb := (C9_config_invariants
    ⟨"mon.example.com", "prod", "user", "pw", true, 0, 3, false⟩).2
    (Or.inr (Or.inr (Or.inr (Or.inr (by decide)))))
  refine ⟨ha.2.2.2.2.2.2.1, ?_, hb⟩
  rcases ha.2.2.2.2.2.2.2 with hc | hc | hc
  · exact hc
  · exact absurd hc (by decide)
  · exact absurd hc (by decide)
